import Mathlib

/-!
# Verification of the Geometry rasterization engine

Shallow embedding of the Go program (shape rasterizers over a pixel canvas,
`src/unnamed/part_000`) together with proofs of the specification claims.

Modelling conventions:
* Go `int` is modelled as `Int` (the program never exercises 64-bit overflow).
* Go `float64` arithmetic inside `interpolate` is modelled exactly by dyadic
  rationals `m * 2^e` with round-to-nearest-even at 53 significant bits
  (`Fp`, `roundDyadic`, `fadd`, `fdivII`).  Overflow/subnormal ranges are
  never reached by the program's values and are not modelled.
* The Go `screen` interface is a structure of operations over an explicit
  state type; the concrete `Display` implementation instantiates it.
* Functions that Go would abort with a runtime panic (slice index out of
  range in `Triangle.draw`) return `none` at exactly those inputs.
-/

namespace Geo

/-- Error values of the program (`errOutOfBounds`, `invalidColor`, `fileError`). -/
inductive Err where
  | errOutOfBounds : Err
  | invalidColor : Err
  | fileError : Err
deriving DecidableEq, Repr

/-- RGB triple, components 0..255 (source `type RGB struct`). -/
structure RGB where
  R : Int
  G : Int
  B : Int
deriving DecidableEq, Repr

/-- A color given by its name (source `type Color struct`). -/
structure Color where
  Name : String
deriving DecidableEq, Repr

/-- 2D integer point (source `type Point struct`). -/
structure Point where
  x : Int
  y : Int
deriving DecidableEq, Repr

/-- The fixed palette (source `var ColorMap = map[string]RGB{...}`). -/
def ColorMap (name : String) : Option RGB :=
  if name = "red" then some ⟨255, 0, 0⟩
  else if name = "green" then some ⟨0, 255, 0⟩
  else if name = "blue" then some ⟨0, 0, 255⟩
  else if name = "yellow" then some ⟨255, 255, 0⟩
  else if name = "orange" then some ⟨255, 164, 0⟩
  else if name = "purple" then some ⟨128, 0, 128⟩
  else if name = "brown" then some ⟨165, 42, 42⟩
  else if name = "black" then some ⟨0, 0, 0⟩
  else if name = "white" then some ⟨255, 255, 255⟩
  else none

/-- Go map lookup with the zero value `RGB{}` for missing keys, as used by
`screenShot` (`rgb := ColorMap[color.Name]`). -/
def colorMapZ (name : String) : RGB :=
  (ColorMap name).getD ⟨0, 0, 0⟩

/-- `colorUnknown` from the source: true iff the name is not a palette key. -/
def colorUnknown (c : Color) : Bool :=
  (ColorMap c.Name).isNone

/-- Rectangle: lower-left, upper-right corners and fill color. -/
structure Rectangle where
  ll : Point
  ur : Point
  c : Color
deriving DecidableEq, Repr

/-- Triangle: three vertices and fill color. -/
structure Triangle where
  pt0 : Point
  pt1 : Point
  pt2 : Point
  c : Color
deriving DecidableEq, Repr

/-- Circle: center, integer radius and fill color. -/
structure Circle where
  center : Point
  r : Int
  c : Color
deriving DecidableEq, Repr

/-- The Go `screen` interface, restricted to the two operations the shape
rasterizers use.  `drawPixel` returns the error value and the updated state
(Go mutates the receiver in place and returns only the error; callers that
discard the error still keep the mutation, hence the explicit pair). -/
structure Screen (σ : Type) where
  getMaxXY : σ → Int × Int
  drawPixel : σ → Int → Int → Color → Option Err × σ

/-- `outOfBounds` from the source: whether a point lies outside
`[0,xMax) × [0,yMax)` of the screen. -/
def outOfBounds {σ : Type} (S : Screen σ) (p : Point) (s : σ) : Bool :=
  let m := S.getMaxXY s
  decide (p.x < 0) || decide (m.1 ≤ p.x) || decide (p.y < 0) || decide (m.2 ≤ p.y)

/-! ## The `Display` implementation of `screen` -/

/-- The concrete display: dimensions and a grid of colors indexed `[x][y]`
(`matrix` is a list of `maxX` columns, each of `maxY` cells). -/
structure Display where
  maxX : Int
  maxY : Int
  matrix : List (List Color)
deriving DecidableEq, Repr

/-- Source `initialize`: a `x × y` grid, every cell white.  (Go `make` with a
negative length would panic; all uses have positive dimensions.) -/
def Display.create (x y : Int) : Display :=
  ⟨x, y, List.replicate x.toNat (List.replicate y.toNat ⟨"white"⟩)⟩

/-- Read a cell `matrix[x][y]`.  Indices are bounds-checked by all the source
call sites, so the `getD` defaults are never observable there. -/
def Display.cell (d : Display) (x y : Int) : Color :=
  (d.matrix.getD x.toNat []).getD y.toNat ⟨"white"⟩

/-- Write a cell `matrix[x][y] = c`. -/
def Display.setCell (d : Display) (x y : Int) (c : Color) : Display :=
  { d with matrix := d.matrix.set x.toNat ((d.matrix.getD x.toNat []).set y.toNat c) }

/-- Source `drawPixel`: bounds check, color check, then store. -/
def Display.drawPixel (d : Display) (x y : Int) (c : Color) : Option Err × Display :=
  if x < 0 ∨ y < 0 ∨ d.maxX ≤ x ∨ d.maxY ≤ y then (some .errOutOfBounds, d)
  else if colorUnknown c then (some .invalidColor, d)
  else (none, d.setCell x y c)

/-- Source `getPixel`: bounds check, read, defensive color check. -/
def Display.getPixel (d : Display) (x y : Int) : Except Err Color :=
  if x < 0 ∨ y < 0 ∨ d.maxX ≤ x ∨ d.maxY ≤ y then .error .errOutOfBounds
  else if colorUnknown (d.cell x y) then .error .invalidColor
  else .ok (d.cell x y)

/-- Source `clearScreen`: reset every cell to white. -/
def Display.clearScreen (d : Display) : Display :=
  { d with matrix := d.matrix.map (fun col => col.map (fun _ => ⟨"white"⟩)) }

/-- The `Display` instance of the `screen` interface. -/
def displayScreen : Screen Display :=
  ⟨fun d => (d.maxX, d.maxY), Display.drawPixel⟩

/-- Well-formedness of a display: the grid really is `maxX` columns of
`maxY` cells, as `initialize` establishes. -/
def DisplayWF (d : Display) : Prop :=
  d.matrix.length = d.maxX.toNat ∧ ∀ col ∈ d.matrix, col.length = d.maxY.toNat

instance (d : Display) : Decidable (DisplayWF d) := by
  unfold DisplayWF; infer_instance

/-- Every stored cell is a palette color. -/
def validCells (d : Display) : Bool :=
  d.matrix.all (fun col => col.all (fun c => !colorUnknown c))

/-! ## Exact model of the `float64` arithmetic used by `interpolate`

A finite IEEE-754 double is a dyadic rational `m * 2^e` with `|m| < 2^53`.
`roundDyadic` rounds an arbitrary dyadic rational to that form with
round-to-nearest, ties to even — the IEEE default mode used by Go.  Addition
of two doubles is the exactly-computed sum rounded once; division of two
integers is the exactly-computed quotient rounded once.  Exponent overflow
and subnormals are outside the value range of this program and not modelled.
-/

/-- Fuel-driven floor of the base-2 logarithm (`log2F n n` is exact for all
`n`, since halving reaches 1 in at most `n` steps). -/
def log2F : Nat → Nat → Nat
  | 0, _ => 0
  | fuel+1, n => if 2 ≤ n then log2F fuel (n / 2) + 1 else 0

/-- `natLog2 n` = ⌊log₂ n⌋ for `n ≥ 1`, and 0 for `n = 0`. -/
def natLog2 (n : Nat) : Nat := log2F n n

/-- A (finite) IEEE double, represented by its exact value `m * 2^e`. -/
structure Fp where
  m : Int
  e : Int
deriving DecidableEq, Repr

/-- Round the dyadic rational `m * 2^e` to 53 significant bits,
round-to-nearest with ties to even. -/
def roundDyadic (m : Int) (e : Int) : Fp :=
  if m = 0 then ⟨0, 0⟩
  else
    let n := m.natAbs
    let L := natLog2 n
    if L ≤ 52 then ⟨m, e⟩
    else
      let k := L - 52
      let q := n >>> k
      let r := n - (q <<< k)
      let half := 2 ^ (k - 1)
      let q' := if half < r then q + 1
                else if r < half then q
                else if q % 2 = 0 then q else q + 1
      ⟨if 0 < m then (q' : Int) else -(q' : Int), e + k⟩

/-- Go's `float64(n)` conversion of an integer. -/
def fofInt (n : Int) : Fp := roundDyadic n 0

/-- IEEE double addition: exact dyadic sum, rounded once. -/
def fadd (x y : Fp) : Fp :=
  let e := min x.e y.e
  roundDyadic (x.m * 2 ^ (x.e - e).toNat + y.m * 2 ^ (y.e - e).toNat) e

/-- Round the exact quotient `A / B` (`B ≠ 0`) to a natural number,
round-to-nearest with ties to even. -/
def divRound (A B : Nat) : Nat :=
  let Q := A / B
  let R := A - Q * B
  if B < 2 * R then Q + 1
  else if 2 * R < B then Q
  else if Q % 2 = 0 then Q else Q + 1

/-- IEEE double division of two integer-valued doubles,
`float64(p) / float64(q)`.  A zero divisor is Go's float division by zero
(±Inf / NaN); the only call with a zero divisor is an `interpolate` call
whose quotient is never consumed (the loop runs exactly once and the slice
already holds its value), so an arbitrary value is returned there. -/
def fdivII (p q : Int) : Fp :=
  if p = 0 ∨ q = 0 then ⟨0, 0⟩
  else
    let a := p.natAbs
    let b := q.natAbs
    let t : Int := 52 - (natLog2 a : Int) + (natLog2 b : Int)
    let A := a * 2 ^ t.toNat
    let B := b * 2 ^ (-t).toNat
    let t' : Int := if A / B < 2 ^ 52 then t + 1 else t
    let A' := if A / B < 2 ^ 52 then A * 2 else A
    let Q := divRound A' B
    ⟨if (0 < p) = (0 < q) then (Q : Int) else -(Q : Int), -t'⟩

/-- Go's `int(d)` conversion: truncation toward zero. -/
def ftrunc (x : Fp) : Int :=
  if 0 ≤ x.e then x.m * 2 ^ x.e.toNat
  else
    let n := x.m.natAbs >>> (-x.e).toNat
    if 0 ≤ x.m then (n : Int) else -(n : Int)

/-- The body of `interpolate`'s loop: append `int(d)`, then `d = d + a`,
`count` times. -/
def interpolateAux (a : Fp) : Nat → Fp → List Int
  | 0, _ => []
  | count+1, d => ftrunc d :: interpolateAux a count (fadd d a)

/-- Source `interpolate(l0, d0, l1, d1)`: `a := float64(d1-d0)/float64(l1-l0)`,
`d := float64(d0)`, then `l1-l0+1` iterations of append-and-accumulate
(none when `l1 < l0`). -/
def interpolate (l0 d0 l1 d1 : Int) : List Int :=
  interpolateAux (fdivII (d1 - d0) (l1 - l0)) (l1 - l0 + 1).toNat (fofInt d0)

/-! ## The shape rasterizers -/

/-- Inner loop of `Rectangle.draw`: `for y := y0; y < ur.y; y++` with the
`drawPixel` error propagated immediately (`count` = number of iterations). -/
def rectLoopY {σ : Type} (S : Screen σ) (x : Int) (c : Color) :
    Nat → Int → σ → Option Err × σ
  | 0, _, s => (none, s)
  | n+1, y, s =>
    match S.drawPixel s x y c with
    | (some err, s') => (some err, s')
    | (none, s') => rectLoopY S x c n (y+1) s'

/-- Outer loop of `Rectangle.draw`: `for x := ll.x; x < ur.x; x++`. -/
def rectLoopX {σ : Type} (S : Screen σ) (c : Color) (lly ury : Int) :
    Nat → Int → σ → Option Err × σ
  | 0, _, s => (none, s)
  | n+1, x, s =>
    match rectLoopY S x c (ury - lly).toNat lly s with
    | (some err, s') => (some err, s')
    | (none, s') => rectLoopX S c lly ury n (x+1) s'

/-- Source `Rectangle.draw`: bounds check on both corners, color check, then
fill `[ll.x, ur.x) × [ll.y, ur.y)`, aborting on the first pixel error. -/
def Rectangle.draw {σ : Type} (S : Screen σ) (r : Rectangle) (s : σ) :
    Option Err × σ :=
  if outOfBounds S r.ll s || outOfBounds S r.ur s then (some .errOutOfBounds, s)
  else if colorUnknown r.c then (some .invalidColor, s)
  else rectLoopX S r.c r.ll.y r.ur.y (r.ur.x - r.ll.x).toNat r.ll.x s

/-- The three conditional swaps of `Triangle.draw` (source lines 165–177).
Note that all three conditions test the y-values captured *before* any swap,
exactly as the source does; for inputs with `pt1.y ≤ pt2.y < pt0.y` the
result is *not* sorted by y. -/
def sortTriPts (t : Triangle) : Triangle :=
  let y0 := t.pt0.y
  let y1 := t.pt1.y
  let y2 := t.pt2.y
  let ta := if y1 < y0 then { t with pt0 := t.pt1, pt1 := t.pt0 } else t
  let tb := if y2 < y0 then { ta with pt0 := ta.pt2, pt2 := ta.pt0 } else ta
  if y2 < y1 then { tb with pt1 := tb.pt2, pt2 := tb.pt1 } else tb

/-- Innermost loop of `Triangle.draw`: `for x := xl; x <= xr; x++` calling
`drawPixel` and discarding its error (the source ignores the return value). -/
def triInnerLoop {σ : Type} (S : Screen σ) (c : Color) (y : Int) :
    Nat → Int → σ → σ
  | 0, _, s => s
  | n+1, x, s => triInnerLoop S c y n (x+1) (S.drawPixel s x y c).2

/-- Scanline loop of `Triangle.draw`: `for y := y0; y <= y2; y++`, reading the
row bounds `x_left[y-y0]`, `x_right[y-y0]`.  Whenever the loop runs, those
indices are within the slice lengths (checked by `Triangle.draw` through the
`x02[m]` access or by the loop being empty), so the `getD` default is never
observable. -/
def triRowLoop {σ : Type} (S : Screen σ) (c : Color) (xleft xright : List Int)
    (ybase : Int) : Nat → Int → σ → σ
  | 0, _, s => s
  | n+1, y, s =>
    let xl := xleft.getD (y - ybase).toNat 0
    let xr := xright.getD (y - ybase).toNat 0
    triRowLoop S c xleft xright ybase n (y+1)
      (triInnerLoop S c y (xr - xl + 1).toNat xl s)

/-- The long-edge interpolation of `Triangle.draw`:
`x02 := interpolate(y0, x0, y2, x2)` on the (sorted) triangle. -/
def triX02 (t : Triangle) : List Int :=
  interpolate t.pt0.y t.pt0.x t.pt2.y t.pt2.x

/-- The concatenated short edges of `Triangle.draw`:
`x012 := append(x01[:len(x01)-1], x12...)` with
`x01 := interpolate(y0, x0, y1, x1)` and `x12 := interpolate(y1, x1, y2, x2)`
on the (sorted) triangle. -/
def triX012 (t : Triangle) : List Int :=
  (interpolate t.pt0.y t.pt0.x t.pt1.y t.pt1.x).dropLast
    ++ interpolate t.pt1.y t.pt1.x t.pt2.y t.pt2.x

/-- Source `Triangle.draw`.  Returns `none` exactly where the Go program
panics with a slice index out of range: the `x02[m]` (or `x012[m]`) access,
reachable because `sortTriPts` fails to sort some inputs. -/
def Triangle.draw {σ : Type} (S : Screen σ) (tri : Triangle) (s : σ) :
    Option (Option Err × σ) :=
  if outOfBounds S tri.pt0 s || outOfBounds S tri.pt1 s || outOfBounds S tri.pt2 s then
    some (some .errOutOfBounds, s)
  else if colorUnknown tri.c then some (some .invalidColor, s)
  else
    let t := sortTriPts tri
    let x02 := triX02 t
    let x012 := triX012 t
    let m := x012.length / 2
    match x02[m]?, x012[m]? with
    | some a02, some a012 =>
      let lr := if a02 < a012 then (x02, x012) else (x012, x02)
      some (none, triRowLoop S t.c lr.1 lr.2 t.pt0.y (t.pt2.y - t.pt0.y + 1).toNat
        t.pt0.y s)
    | _, _ => none

/-- Source `insideCircle`: `math.Sqrt(dx*dx+dy*dy) <= r` on `float64`.
For the integer-valued arguments the program supplies (and radii below
`2^25`, far beyond any canvas), the squares and their sum are exact doubles
and `Sqrt` is correctly rounded and monotone, so the comparison holds exactly
iff `r ≥ 0 ∧ dx² + dy² ≤ r²`; the embedding uses that integer form. -/
def insideCircle (center tile : Point) (r : Int) : Bool :=
  decide (0 ≤ r ∧ (center.x - tile.x) ^ 2 + (center.y - tile.y) ^ 2 ≤ r ^ 2)

/-- Inner loop of `Circle.draw`: `for x := cx-r; x <= cx+r; x++`, drawing when
the pixel is inside the disk and inside the captured screen bounds, with the
`drawPixel` error discarded. -/
def circInnerLoop {σ : Type} (S : Screen σ) (ci : Circle) (maxX maxY y : Int) :
    Nat → Int → σ → σ
  | 0, _, s => s
  | n+1, x, s =>
    let s' := if insideCircle ci.center ⟨x, y⟩ ci.r then
                if 0 ≤ x ∧ x < maxX ∧ 0 ≤ y ∧ y < maxY then (S.drawPixel s x y ci.c).2
                else s
              else s
    circInnerLoop S ci maxX maxY y n (x+1) s'

/-- Outer loop of `Circle.draw`: `for y := cy-r; y <= cy+r; y++`. -/
def circOuterLoop {σ : Type} (S : Screen σ) (ci : Circle) (maxX maxY : Int) :
    Nat → Int → σ → σ
  | 0, _, s => s
  | n+1, y, s =>
    circOuterLoop S ci maxX maxY n (y+1)
      (circInnerLoop S ci maxX maxY y (2 * ci.r + 1).toNat (ci.center.x - ci.r) s)

/-- Source `Circle.draw`: bounding-extent check, color check, then scan the
bounding square testing each pixel with `insideCircle` and re-checking the
screen bounds before each write. -/
def Circle.draw {σ : Type} (S : Screen σ) (ci : Circle) (s : σ) :
    Option Err × σ :=
  let M := S.getMaxXY s
  if ci.center.x - ci.r < 0 ∨ ci.center.y - ci.r < 0 ∨
     M.1 ≤ ci.center.x + ci.r ∨ M.2 ≤ ci.center.y + ci.r then
    (some .errOutOfBounds, s)
  else if colorUnknown ci.c then (some .invalidColor, s)
  else (none, circOuterLoop S ci M.1 M.2 (2 * ci.r + 1).toNat (ci.center.y - ci.r) s)

/-- The divisors `l1 - l0` of the three `interpolate` calls made by
`Triangle.draw` (source lines 181–183), in call order. -/
def triangleEdgeDivisors (t : Triangle) : List Int :=
  let ts := sortTriPts t
  [ts.pt1.y - ts.pt0.y, ts.pt2.y - ts.pt1.y, ts.pt2.y - ts.pt0.y]

/-! ## `screenShot` file content -/

/-- One pixel as written by `fmt.Fprintf(file, "%d %d %d", rgb.R, rgb.G, rgb.B)`. -/
def tripleStr (rgb : RGB) : String :=
  toString rgb.R ++ " " ++ toString rgb.G ++ " " ++ toString rgb.B

/-- One row of pixel data as the source's inner loop writes it: a space before
every pixel except the first (`if x > 0 { Fprint(file, " ") }`). -/
def screenShotRow (d : Display) (y : Nat) : String :=
  (List.range d.maxX.toNat).foldl
    (fun acc x => acc ++ (if 0 < x then " " else "") ++
      tripleStr (colorMapZ (d.cell (Int.ofNat x) (Int.ofNat y)).Name)) ""

/-- The full file content written by source `screenShot` (header
`P3 / maxX maxY / 255`, then one line per row `y = 0 .. maxY-1`, each ended
by `Fprintln`'s newline).  File-system failures are outside the model. -/
def Display.screenShot (d : Display) : String :=
  "P3\n" ++ toString d.maxX ++ " " ++ toString d.maxY ++ "\n255\n" ++
  (List.range d.maxY.toNat).foldl (fun acc y => acc ++ screenShotRow d y ++ "\n") ""

/-- Space-separated join with no leading or trailing separator — the format
the specification describes for one row of the exported image. -/
def specRowJoin : List String → String
  | [] => ""
  | p :: rest => rest.foldl (fun acc q => acc ++ " " ++ q) p

/-- The export format exactly as the specification words it: a 3-line header
(tag `P3`, then width and height, then 255), followed by `height` lines where
line `y` lists the `width` RGB triples of pixels `(0,y) .. (width-1,y)` read
from the grid as `[x][y]`, space-separated with no trailing separator. -/
def specPPM (d : Display) : String :=
  "P3\n" ++ toString d.maxX ++ " " ++ toString d.maxY ++ "\n255\n" ++
  String.join ((List.range d.maxY.toNat).map (fun y =>
    specRowJoin ((List.range d.maxX.toNat).map (fun x =>
      tripleStr (colorMapZ (d.cell (Int.ofNat x) (Int.ofNat y)).Name))) ++ "\n"))

/-! ## Operation sequences on a canvas (for the canvas invariant) -/

/-- One canvas-mutating operation: a raw pixel write, a clear, or one of the
three shape draws. -/
inductive Op where
  | setPix : Int → Int → Color → Op
  | clear : Op
  | rect : Rectangle → Op
  | tri : Triangle → Op
  | circ : Circle → Op

/-- Apply one operation to the display, keeping the mutated state whatever
the returned error (Go mutates in place).  A triangle draw that panics ends
the program; the canvas state it left behind is the pre-call one. -/
def applyOp (d : Display) : Op → Display
  | .setPix x y c => (d.drawPixel x y c).2
  | .clear => d.clearScreen
  | .rect r => (Rectangle.draw displayScreen r d).2
  | .tri t =>
    match Triangle.draw displayScreen t d with
    | some p => p.2
    | none => d
  | .circ ci => (Circle.draw displayScreen ci d).2

/-- Apply a sequence of operations in order. -/
def applyOps (d : Display) (ops : List Op) : Display :=
  ops.foldl applyOp d

/-- A `screen` whose `drawPixel` always fails, counting its calls.  Witnesses
how the rasterizers treat pixel-write errors: it is a legitimate instance of
the Go `screen` interface that `draw(scn screen)` accepts. -/
def hostileScreen : Screen Nat :=
  ⟨fun _ => (100, 100), fun n _ _ _ => (some .errOutOfBounds, n + 1)⟩

/-! ## Basic lemmas about the display -/

theorem outOfBounds_displayScreen (p : Point) (d : Display) :
    outOfBounds displayScreen p d = false ↔
      0 ≤ p.x ∧ p.x < d.maxX ∧ 0 ≤ p.y ∧ p.y < d.maxY := by
  simp [outOfBounds, displayScreen]
  omega

theorem setCell_maxX (d : Display) (x y : Int) (c : Color) :
    (d.setCell x y c).maxX = d.maxX := rfl

theorem setCell_maxY (d : Display) (x y : Int) (c : Color) :
    (d.setCell x y c).maxY = d.maxY := rfl

theorem matrix_getD_mem (d : Display) (i : Nat) (h : i < d.matrix.length) :
    d.matrix.getD i [] ∈ d.matrix := by
  rw [List.getD_eq_getElem _ _ h]
  exact List.getElem_mem h

theorem setCell_wf (d : Display) (x y : Int) (c : Color) (hwf : DisplayWF d)
    (hx : x.toNat < d.matrix.length) : DisplayWF (d.setCell x y c) := by
  obtain ⟨hlen, hcols⟩ := hwf
  refine ⟨by simpa [Display.setCell] using hlen, ?_⟩
  intro col hcol
  rcases List.mem_or_eq_of_mem_set hcol with h | rfl
  · exact hcols _ h
  · rw [List.length_set]
    exact hcols _ (matrix_getD_mem d _ hx)

/-- The effect of `setCell` on `cell`, for in-bounds target coordinates. -/
theorem cell_setCell (d : Display) (x y a b : Int) (c : Color) (hwf : DisplayWF d)
    (hx : 0 ≤ x) (hx2 : x < d.maxX) (hy : 0 ≤ y) (hy2 : y < d.maxY)
    (ha : 0 ≤ a) (hb : 0 ≤ b) :
    (d.setCell x y c).cell a b = if a = x ∧ b = y then c else d.cell a b := by
  obtain ⟨hlen, hcols⟩ := hwf
  have hxlt : x.toNat < d.matrix.length := by omega
  have hcollen : (d.matrix.getD x.toNat []).length = d.maxY.toNat :=
    hcols _ (matrix_getD_mem d _ hxlt)
  have hylt : y.toNat < (d.matrix.getD x.toNat []).length := by omega
  simp only [List.getD_eq_getElem?_getD] at hylt
  by_cases hax : a = x
  · subst hax
    by_cases hby : b = y
    · subst hby
      rw [if_pos ⟨rfl, rfl⟩]
      simp only [Display.cell, Display.setCell, List.getD_eq_getElem?_getD]
      rw [List.getElem?_set_eq hxlt, Option.getD_some, List.getElem?_set_eq hylt,
          Option.getD_some]
    · rw [if_neg (by tauto)]
      simp only [Display.cell, Display.setCell, List.getD_eq_getElem?_getD]
      rw [List.getElem?_set_eq hxlt, Option.getD_some,
          List.getElem?_set_ne (show y.toNat ≠ b.toNat by omega)]
  · rw [if_neg (by tauto)]
    simp only [Display.cell, Display.setCell, List.getD_eq_getElem?_getD]
    rw [List.getElem?_set_ne (show x.toNat ≠ a.toNat by omega)]

/-- `drawPixel` on an in-bounds pixel with a palette color stores the color. -/
theorem drawPixel_ok (d : Display) (x y : Int) (c : Color)
    (hx : 0 ≤ x) (hx2 : x < d.maxX) (hy : 0 ≤ y) (hy2 : y < d.maxY)
    (hc : colorUnknown c = false) :
    d.drawPixel x y c = (none, d.setCell x y c) := by
  unfold Display.drawPixel
  rw [if_neg (by omega), if_neg (by simp [hc])]

/-! ## Rectangle loop characterization (claim C1) -/

theorem rectLoopY_spec (x : Int) (c : Color) (hc : colorUnknown c = false) :
    ∀ (n : Nat) (y : Int) (d : Display), DisplayWF d →
    0 ≤ x → x < d.maxX → 0 ≤ y → y + n ≤ d.maxY →
    ∃ d', rectLoopY displayScreen x c n y d = (none, d') ∧
      d'.maxX = d.maxX ∧ d'.maxY = d.maxY ∧ DisplayWF d' ∧
      ∀ a b : Int, 0 ≤ a → 0 ≤ b →
        d'.cell a b = if a = x ∧ y ≤ b ∧ b < y + n then c else d.cell a b := by
  intro n
  induction n with
  | zero =>
    intro y d hwf _ _ _ _
    exact ⟨d, rfl, rfl, rfl, hwf, fun a b _ _ => by rw [if_neg (by omega)]⟩
  | succ n ih =>
    intro y d hwf hx hx2 hy hyn
    push_cast at hyn
    have hy2 : y < d.maxY := by omega
    have hstep : displayScreen.drawPixel d x y c = (none, d.setCell x y c) :=
      drawPixel_ok d x y c hx hx2 hy hy2 hc
    have hwflen : x.toNat < d.matrix.length := by
      obtain ⟨hlen, -⟩ := hwf; omega
    have hwf2 : DisplayWF (d.setCell x y c) := setCell_wf d x y c hwf hwflen
    obtain ⟨d', hd', hmx, hmy, hwf', hchar⟩ :=
      ih (y+1) (d.setCell x y c) hwf2 hx (by rwa [setCell_maxX]) (by omega)
        (by rw [setCell_maxY]; omega)
    refine ⟨d', ?_, by rwa [setCell_maxX] at hmx, by rwa [setCell_maxY] at hmy, hwf', ?_⟩
    · show rectLoopY displayScreen x c (n+1) y d = (none, d')
      unfold rectLoopY
      rw [hstep]
      exact hd'
    · intro a b ha hb
      rw [hchar a b ha hb, cell_setCell d x y a b c hwf hx hx2 hy hy2 ha hb]
      split_ifs with h1 h2 h3 <;> first | rfl | omega

theorem rectLoopX_spec (c : Color) (lly ury : Int) (hc : colorUnknown c = false) :
    ∀ (n : Nat) (x : Int) (d : Display), DisplayWF d →
    0 ≤ x → x + n ≤ d.maxX → 0 ≤ lly → lly < d.maxY → ury ≤ d.maxY →
    ∃ d', rectLoopX displayScreen c lly ury n x d = (none, d') ∧
      d'.maxX = d.maxX ∧ d'.maxY = d.maxY ∧ DisplayWF d' ∧
      ∀ a b : Int, 0 ≤ a → 0 ≤ b →
        d'.cell a b = if x ≤ a ∧ a < x + n ∧ lly ≤ b ∧ b < ury
                      then c else d.cell a b := by
  intro n
  induction n with
  | zero =>
    intro x d hwf _ _ _ _ _
    exact ⟨d, rfl, rfl, rfl, hwf, fun a b _ _ => by rw [if_neg (by omega)]⟩
  | succ n ih =>
    intro x d hwf hx hxn hly hly2 hury
    push_cast at hxn
    obtain ⟨d2, hd2, hmx2, hmy2, hwf2, hchar2⟩ :=
      rectLoopY_spec x c hc (ury - lly).toNat lly d hwf hx (by omega) hly (by omega)
    obtain ⟨d', hd', hmx, hmy, hwf', hchar⟩ :=
      ih (x+1) d2 hwf2 (by omega) (by omega) hly (by omega) (by omega)
    refine ⟨d', ?_, by omega, by omega, hwf', ?_⟩
    · show rectLoopX displayScreen c lly ury (n+1) x d = (none, d')
      unfold rectLoopX
      rw [hd2]
      exact hd'
    · intro a b ha hb
      rw [hchar a b ha hb, hchar2 a b ha hb]
      split_ifs with h1 h2 h3 <;> first | rfl | omega

/-- Claim C1: a rectangle whose corners both lie in `[0,width) × [0,height)`
and whose fill color is in the palette draws successfully, and the painted
pixel set is exactly the half-open box `[ll.x, ur.x) × [ll.y, ur.y)` (in
particular `ll = ur` paints nothing). -/
theorem rectangle_draw_paints_exact_box (r : Rectangle) (d : Display)
    (hwf : DisplayWF d)
    (h1 : 0 ≤ r.ll.x) (h2 : r.ll.x < d.maxX) (h3 : 0 ≤ r.ll.y) (h4 : r.ll.y < d.maxY)
    (h5 : 0 ≤ r.ur.x) (h6 : r.ur.x < d.maxX) (h7 : 0 ≤ r.ur.y) (h8 : r.ur.y < d.maxY)
    (hc : colorUnknown r.c = false) :
    ∃ d', Rectangle.draw displayScreen r d = (none, d') ∧
      d'.maxX = d.maxX ∧ d'.maxY = d.maxY ∧
      ∀ a b : Int, 0 ≤ a → 0 ≤ b →
        d'.cell a b = if r.ll.x ≤ a ∧ a < r.ur.x ∧ r.ll.y ≤ b ∧ b < r.ur.y
                      then r.c else d.cell a b := by
  have hob1 : outOfBounds displayScreen r.ll d = false :=
    (outOfBounds_displayScreen r.ll d).2 ⟨h1, h2, h3, h4⟩
  have hob2 : outOfBounds displayScreen r.ur d = false :=
    (outOfBounds_displayScreen r.ur d).2 ⟨h5, h6, h7, h8⟩
  obtain ⟨d', hd', hmx, hmy, _, hchar⟩ :=
    rectLoopX_spec r.c r.ll.y r.ur.y hc (r.ur.x - r.ll.x).toNat r.ll.x d hwf h1
      (by omega) h3 h4 (by omega)
  refine ⟨d', ?_, hmx, hmy, ?_⟩
  · unfold Rectangle.draw
    rw [hob1, hob2]
    simp only [Bool.or_self, Bool.false_eq_true, if_false, hc]
    exact hd'
  · intro a b ha hb
    rw [hchar a b ha hb]
    split_ifs with h9 h10 <;> first | rfl | omega

/-- Witness for `rectangle_draw_paints_exact_box`: the specification's own
scenario, a red rectangle from (2,2) to (5,5) on a 10×10 canvas. -/
theorem rectangle_draw_paints_exact_box_witness :
    DisplayWF (Display.create 10 10) ∧
    ∃ d', Rectangle.draw displayScreen ⟨⟨2,2⟩,⟨5,5⟩,⟨"red"⟩⟩ (Display.create 10 10)
            = (none, d') ∧
      d'.maxX = (Display.create 10 10).maxX ∧ d'.maxY = (Display.create 10 10).maxY ∧
      ∀ a b : Int, 0 ≤ a → 0 ≤ b →
        d'.cell a b = if (2:Int) ≤ a ∧ a < 5 ∧ (2:Int) ≤ b ∧ b < 5
                      then ⟨"red"⟩ else (Display.create 10 10).cell a b :=
  ⟨by decide,
   rectangle_draw_paints_exact_box ⟨⟨2,2⟩,⟨5,5⟩,⟨"red"⟩⟩ (Display.create 10 10)
     (by decide) (by decide) (by decide) (by decide) (by decide) (by decide)
     (by decide) (by decide) (by decide) (by decide)⟩

/-- Claim C10: a circle with negative radius whose (inverted) bounding extent
passes the bounds check draws with no error and paints nothing: the bounding
square loops run zero times, leaving the canvas untouched. -/
theorem negative_radius_circle_noop (ci : Circle) (d : Display)
    (hr : ci.r < 0)
    (hb1 : 0 ≤ ci.center.x - ci.r) (hb2 : 0 ≤ ci.center.y - ci.r)
    (hb3 : ci.center.x + ci.r < d.maxX) (hb4 : ci.center.y + ci.r < d.maxY)
    (hc : colorUnknown ci.c = false) :
    Circle.draw displayScreen ci d = (none, d) := by
  unfold Circle.draw
  rw [if_neg (by simp only [displayScreen]; omega), if_neg (by simp [hc])]
  rw [show (2 * ci.r + 1).toNat = 0 from by omega]
  rfl

/-- Witness for `negative_radius_circle_noop`: radius −1 at (5,5) on 10×10. -/
theorem negative_radius_circle_noop_witness :
    (-1 : Int) < 0 ∧
    Circle.draw displayScreen ⟨⟨5,5⟩,-1,⟨"red"⟩⟩ (Display.create 10 10)
      = (none, Display.create 10 10) :=
  ⟨by decide,
   negative_radius_circle_noop ⟨⟨5,5⟩,-1,⟨"red"⟩⟩ (Display.create 10 10)
     (by decide) (by decide) (by decide) (by decide) (by decide) (by decide)⟩

/-- Claim C9: a valid (in-bounds, palette-color) triangle with a horizontal
edge — here the spec's own scenario (0,0), (4,0), (2,4) on a 10×10 canvas —
reaches the edge interpolation with divisor `l1 - l0 = 0`: a division by
zero inside `interpolate` (Go float division, yielding ±Inf/NaN, not a trap;
the poisoned quotient is never consumed because that edge spans one row).
The draw itself completes. -/
theorem triangle_horizontal_edge_division_by_zero :
    (outOfBounds displayScreen (⟨⟨0,0⟩,⟨4,0⟩,⟨2,4⟩,⟨"red"⟩⟩ : Triangle).pt0
        (Display.create 10 10) = false) ∧
    (outOfBounds displayScreen (⟨⟨0,0⟩,⟨4,0⟩,⟨2,4⟩,⟨"red"⟩⟩ : Triangle).pt1
        (Display.create 10 10) = false) ∧
    (outOfBounds displayScreen (⟨⟨0,0⟩,⟨4,0⟩,⟨2,4⟩,⟨"red"⟩⟩ : Triangle).pt2
        (Display.create 10 10) = false) ∧
    colorUnknown (⟨"red"⟩ : Color) = false ∧
    (0 : Int) ∈ triangleEdgeDivisors ⟨⟨0,0⟩,⟨4,0⟩,⟨2,4⟩,⟨"red"⟩⟩ ∧
    (Triangle.draw displayScreen ⟨⟨0,0⟩,⟨4,0⟩,⟨2,4⟩,⟨"red"⟩⟩
        (Display.create 10 10)).isSome = true := by
  decide

/-- Counterexample to claim C7: the values `interpolate` returns are *not*
`x_a + (y - y_a) * (x_b - x_a) / (y_b - y_a)` truncated toward zero.  For the
edge (0,0) → (10,1) the exact formula gives 1 at the last row `y = 10`, but
the float64 accumulation of the slope `fl(1/10)` reaches only
`0.9999999999999999`, so the code yields 0 there. -/
theorem interpolate_float_drift_cex :
    interpolate 0 0 10 1 = [0, 0, 0, 0, 0, 0, 0, 0, 0, 0, 0] ∧
    (0 : Int) + (10 - 0) * (1 - 0) / (10 - 0) = 1 ∧
    interpolate 0 0 10 1 ≠ [0, 0, 0, 0, 0, 0, 0, 0, 0, 0, 1] := by
  decide

theorem interpolateAux_length (a : Fp) :
    ∀ (n : Nat) (d : Fp), (interpolateAux a n d).length = n := by
  intro n
  induction n with
  | zero => intro d; rfl
  | succ n ih => intro d; simp [interpolateAux, ih]

theorem interpolate_length (l0 d0 l1 d1 : Int) :
    (interpolate l0 d0 l1 d1).length = (l1 - l0 + 1).toNat :=
  interpolateAux_length _ _ _

theorem log2F_le : ∀ (fuel n k : Nat), n < 2 ^ (k + 1) → log2F fuel n ≤ k := by
  intro fuel
  induction fuel with
  | zero => intro n k _; simp [log2F]
  | succ f ih =>
    intro n k h
    unfold log2F
    split
    · rename_i h2
      match k with
      | 0 => omega
      | k' + 1 =>
        have hdiv : n / 2 < 2 ^ (k' + 1) := by
          have h4 : n < 2 ^ (k' + 1) * 2 := by
            rw [← pow_succ]; exact h
          omega
        have := ih (n / 2) k' hdiv
        omega
    · omega

theorem ftrunc_fofInt (n : Int) (h : n.natAbs < 2 ^ 53) : ftrunc (fofInt n) = n := by
  unfold fofInt roundDyadic
  by_cases h0 : n = 0
  · subst h0; simp [ftrunc]
  · rw [if_neg h0]
    have hL : natLog2 n.natAbs ≤ 52 := log2F_le _ _ 52 h
    rw [if_pos hL]
    simp [ftrunc]

/-- Claim C7 (amended): `interpolate` on an edge with `y_a < y_b` returns one
value per integer row of `[y_a, y_b]` — `y_b - y_a + 1` values — and the
first value is exactly `x_a`; the remaining values are the float64
accumulation `x_a + k · fl((x_b - x_a)/(y_b - y_a))` truncated toward zero,
which can drift below the exact formula (`interpolate_float_drift_cex`). -/
theorem interpolate_row_count (l0 d0 l1 d1 : Int) (h : l0 < l1)
    (h0 : d0.natAbs < 2 ^ 53) :
    (interpolate l0 d0 l1 d1).length = (l1 - l0 + 1).toNat ∧
    (interpolate l0 d0 l1 d1).head? = some d0 := by
  refine ⟨interpolate_length l0 d0 l1 d1, ?_⟩
  unfold interpolate
  rw [show (l1 - l0 + 1).toNat = (l1 - l0).toNat + 1 from by omega]
  rw [show interpolateAux (fdivII (d1 - d0) (l1 - l0)) ((l1 - l0).toNat + 1) (fofInt d0)
        = ftrunc (fofInt d0) :: interpolateAux (fdivII (d1 - d0) (l1 - l0)) (l1 - l0).toNat
            (fadd (fofInt d0) (fdivII (d1 - d0) (l1 - l0))) from rfl]
  rw [ftrunc_fofInt d0 h0]
  rfl

/-- Witness for `interpolate_row_count` on the edge (0,7) → (3,9). -/
theorem interpolate_row_count_witness :
    ((0 : Int) < 3 ∧ (7 : Int).natAbs < 2 ^ 53) ∧
    ((interpolate 0 7 3 9).length = ((3 : Int) - 0 + 1).toNat ∧
     (interpolate 0 7 3 9).head? = some 7) :=
  ⟨⟨by decide, by decide⟩, interpolate_row_count 0 7 3 9 (by decide) (by decide)⟩

/-- Counterexample to claim C6: pixel-write errors during painting are *not*
always propagated as the result of `draw`.  On a screen whose `drawPixel`
always returns an error (and counts its calls), `Triangle.draw` performs 5
pixel writes — every one returning an error — and still returns no error;
likewise `Circle.draw` performs all 5 of its writes and returns no error.
Only `Rectangle.draw` checks the returned error. -/
theorem pixel_error_discarded_cex :
    Triangle.draw hostileScreen ⟨⟨0,0⟩,⟨2,1⟩,⟨0,2⟩,⟨"red"⟩⟩ 0 = some (none, 5) ∧
    Circle.draw hostileScreen ⟨⟨1,1⟩,1,⟨"red"⟩⟩ 0 = (none, 5) := by
  decide

/-- The state `triInnerLoop` computes depends only on `drawPixel`'s state
effect, never on the error it returns. -/
theorem triInnerLoop_congr {σ : Type} (S₁ S₂ : Screen σ)
    (hdp : ∀ (s : σ) (x y : Int) (c : Color),
      (S₁.drawPixel s x y c).2 = (S₂.drawPixel s x y c).2) :
    ∀ (c : Color) (y : Int) (n : Nat) (x : Int) (s : σ),
      triInnerLoop S₁ c y n x s = triInnerLoop S₂ c y n x s := by
  intro c y n
  induction n with
  | zero => intro x s; rfl
  | succ n ih =>
    intro x s
    show triInnerLoop S₁ c y n (x+1) (S₁.drawPixel s x y c).2
        = triInnerLoop S₂ c y n (x+1) (S₂.drawPixel s x y c).2
    rw [hdp s x y c]
    exact ih (x+1) (S₂.drawPixel s x y c).2

/-- The state `triRowLoop` computes depends only on `drawPixel`'s state
effect, never on the error it returns. -/
theorem triRowLoop_congr {σ : Type} (S₁ S₂ : Screen σ)
    (hdp : ∀ (s : σ) (x y : Int) (c : Color),
      (S₁.drawPixel s x y c).2 = (S₂.drawPixel s x y c).2) :
    ∀ (c : Color) (xl xr : List Int) (yb : Int) (n : Nat) (y : Int) (s : σ),
      triRowLoop S₁ c xl xr yb n y s = triRowLoop S₂ c xl xr yb n y s := by
  intro c xl xr yb n
  induction n with
  | zero => intro y s; rfl
  | succ n ih =>
    intro y s
    show triRowLoop S₁ c xl xr yb n (y+1)
          (triInnerLoop S₁ c y
            ((xr.getD (y - yb).toNat 0 - xl.getD (y - yb).toNat 0 + 1).toNat)
            (xl.getD (y - yb).toNat 0) s)
        = triRowLoop S₂ c xl xr yb n (y+1)
          (triInnerLoop S₂ c y
            ((xr.getD (y - yb).toNat 0 - xl.getD (y - yb).toNat 0 + 1).toNat)
            (xl.getD (y - yb).toNat 0) s)
    rw [triInnerLoop_congr S₁ S₂ hdp]
    exact ih (y+1) _

/-- The state `circInnerLoop` computes depends only on `drawPixel`'s state
effect, never on the error it returns. -/
theorem circInnerLoop_congr {σ : Type} (S₁ S₂ : Screen σ)
    (hdp : ∀ (s : σ) (x y : Int) (c : Color),
      (S₁.drawPixel s x y c).2 = (S₂.drawPixel s x y c).2) :
    ∀ (ci : Circle) (maxX maxY y : Int) (n : Nat) (x : Int) (s : σ),
      circInnerLoop S₁ ci maxX maxY y n x s = circInnerLoop S₂ ci maxX maxY y n x s := by
  intro ci maxX maxY y n
  induction n with
  | zero => intro x s; rfl
  | succ n ih =>
    intro x s
    show circInnerLoop S₁ ci maxX maxY y n (x+1)
          (if insideCircle ci.center ⟨x, y⟩ ci.r then
            if 0 ≤ x ∧ x < maxX ∧ 0 ≤ y ∧ y < maxY then (S₁.drawPixel s x y ci.c).2
            else s
          else s)
        = circInnerLoop S₂ ci maxX maxY y n (x+1)
          (if insideCircle ci.center ⟨x, y⟩ ci.r then
            if 0 ≤ x ∧ x < maxX ∧ 0 ≤ y ∧ y < maxY then (S₂.drawPixel s x y ci.c).2
            else s
          else s)
    rw [hdp s x y ci.c]
    exact ih (x+1) _

/-- The state `circOuterLoop` computes depends only on `drawPixel`'s state
effect, never on the error it returns. -/
theorem circOuterLoop_congr {σ : Type} (S₁ S₂ : Screen σ)
    (hdp : ∀ (s : σ) (x y : Int) (c : Color),
      (S₁.drawPixel s x y c).2 = (S₂.drawPixel s x y c).2) :
    ∀ (ci : Circle) (maxX maxY : Int) (n : Nat) (y : Int) (s : σ),
      circOuterLoop S₁ ci maxX maxY n y s = circOuterLoop S₂ ci maxX maxY n y s := by
  intro ci maxX maxY n
  induction n with
  | zero => intro y s; rfl
  | succ n ih =>
    intro y s
    show circOuterLoop S₁ ci maxX maxY n (y+1)
          (circInnerLoop S₁ ci maxX maxY y (2 * ci.r + 1).toNat (ci.center.x - ci.r) s)
        = circOuterLoop S₂ ci maxX maxY n (y+1)
          (circInnerLoop S₂ ci maxX maxY y (2 * ci.r + 1).toNat (ci.center.x - ci.r) s)
    rw [circInnerLoop_congr S₁ S₂ hdp]
    exact ih (y+1) _

/-- Claim C6 (amended): on every screen — `draw` takes the `screen`
interface — `Rectangle.draw` propagates a pixel-write error immediately:
whenever a `drawPixel` call fails, the remaining fill loops return exactly
that error and the state left by the failing call, painting nothing further
(and once validation passes, `Rectangle.draw` is those loops).
`Triangle.draw` and `Circle.draw` instead discard the result of every
`drawPixel` call: once validation passes, they return no error whatever the
pixel writes return, and their painting depends only on `drawPixel`'s state
effect, never on its returned error. -/
theorem pixel_error_propagation_amended :
    (∀ (σ : Type) (S : Screen σ) (x : Int) (c : Color) (n : Nat) (y : Int)
        (s : σ) (e : Err) (s' : σ),
      S.drawPixel s x y c = (some e, s') →
      rectLoopY S x c (n + 1) y s = (some e, s')) ∧
    (∀ (σ : Type) (S : Screen σ) (c : Color) (lly ury : Int) (n : Nat) (x : Int)
        (s : σ) (e : Err) (s' : σ),
      rectLoopY S x c (ury - lly).toNat lly s = (some e, s') →
      rectLoopX S c lly ury (n + 1) x s = (some e, s')) ∧
    (∀ (σ : Type) (S : Screen σ) (r : Rectangle) (s : σ),
      (outOfBounds S r.ll s || outOfBounds S r.ur s) = false →
      colorUnknown r.c = false →
      Rectangle.draw S r s
        = rectLoopX S r.c r.ll.y r.ur.y (r.ur.x - r.ll.x).toNat r.ll.x s) ∧
    (∀ (σ : Type) (S : Screen σ) (t : Triangle) (s : σ) (p : Option Err × σ),
      (outOfBounds S t.pt0 s || outOfBounds S t.pt1 s || outOfBounds S t.pt2 s)
        = false →
      colorUnknown t.c = false →
      Triangle.draw S t s = some p → p.1 = none) ∧
    (∀ (σ : Type) (S : Screen σ) (ci : Circle) (s : σ),
      ¬ (ci.center.x - ci.r < 0 ∨ ci.center.y - ci.r < 0 ∨
          (S.getMaxXY s).1 ≤ ci.center.x + ci.r ∨
          (S.getMaxXY s).2 ≤ ci.center.y + ci.r) →
      colorUnknown ci.c = false →
      (Circle.draw S ci s).1 = none) ∧
    (∀ (σ : Type) (S₁ S₂ : Screen σ),
      S₁.getMaxXY = S₂.getMaxXY →
      (∀ (s : σ) (x y : Int) (c : Color),
        (S₁.drawPixel s x y c).2 = (S₂.drawPixel s x y c).2) →
      (∀ (t : Triangle) (s : σ), Triangle.draw S₁ t s = Triangle.draw S₂ t s) ∧
      (∀ (ci : Circle) (s : σ), Circle.draw S₁ ci s = Circle.draw S₂ ci s)) := by
  refine ⟨?_, ?_, ?_, ?_, ?_, ?_⟩
  · intro σ S x c n y s e s' h
    show (match S.drawPixel s x y c with
      | (some err, t) => (some err, t)
      | (none, t) => rectLoopY S x c n (y+1) t) = (some e, s')
    rw [h]
  · intro σ S c lly ury n x s e s' h
    show (match rectLoopY S x c (ury - lly).toNat lly s with
      | (some err, t) => (some err, t)
      | (none, t) => rectLoopX S c lly ury n (x+1) t) = (some e, s')
    rw [h]
  · intro σ S r s hob hc
    unfold Rectangle.draw
    rw [hob]
    simp only [Bool.false_eq_true, if_false, hc]
  · intro σ S t s p hob hc hp
    unfold Triangle.draw at hp
    rw [hob] at hp
    simp only [Bool.false_eq_true, if_false, hc] at hp
    rcases hq1 : (triX02 (sortTriPts t))[(triX012 (sortTriPts t)).length / 2]?
      with _ | a02
    · rw [hq1] at hp
      rcases hq2 : (triX012 (sortTriPts t))[(triX012 (sortTriPts t)).length / 2]?
        with _ | a012 <;> rw [hq2] at hp <;> exact absurd hp (by simp)
    · rcases hq2 : (triX012 (sortTriPts t))[(triX012 (sortTriPts t)).length / 2]?
        with _ | a012
      · rw [hq1, hq2] at hp
        exact absurd hp (by simp)
      · rw [hq1, hq2] at hp
        injection hp with hp
        rw [← hp]
  · intro σ S ci s hb hc
    unfold Circle.draw
    rw [if_neg hb, if_neg (by simp [hc])]
  · intro σ S₁ S₂ hmx hdp
    have houtb : ∀ (p : Point) (s : σ), outOfBounds S₁ p s = outOfBounds S₂ p s := by
      intro p s
      unfold outOfBounds
      rw [hmx]
    constructor
    · intro t s
      unfold Triangle.draw
      simp only [houtb, triRowLoop_congr S₁ S₂ hdp]
    · intro ci s
      unfold Circle.draw
      simp only [hmx, circOuterLoop_congr S₁ S₂ hdp]

/-- Witness for `pixel_error_propagation_amended`, on the always-failing
counting screen: a first-pixel failure aborts the rectangle column loop at
once with that error and state, and a triangle draw that completed there
did so with no error. -/
theorem pixel_error_propagation_amended_witness :
    (hostileScreen.drawPixel 0 0 0 ⟨"red"⟩ = (some .errOutOfBounds, 1) ∧
      (outOfBounds hostileScreen (⟨0,0⟩ : Point) 0 ||
        outOfBounds hostileScreen (⟨2,1⟩ : Point) 0 ||
        outOfBounds hostileScreen (⟨0,2⟩ : Point) 0) = false ∧
      colorUnknown (⟨"red"⟩ : Color) = false ∧
      Triangle.draw hostileScreen ⟨⟨0,0⟩,⟨2,1⟩,⟨0,2⟩,⟨"red"⟩⟩ 0 = some (none, 5)) ∧
    rectLoopY hostileScreen 0 ⟨"red"⟩ (2 + 1) 0 0 = (some .errOutOfBounds, 1) ∧
    ((none : Option Err), (5 : Nat)).1 = none :=
  ⟨⟨by decide, by decide, by decide, by decide⟩,
   pixel_error_propagation_amended.1 Nat hostileScreen 0 ⟨"red"⟩ 2 0 0
     .errOutOfBounds 1 (by decide),
   pixel_error_propagation_amended.2.2.2.1 Nat hostileScreen
     ⟨⟨0,0⟩,⟨2,1⟩,⟨0,2⟩,⟨"red"⟩⟩ 0 (none, 5) (by decide) (by decide) (by decide)⟩

/-- Counterexample to claim C5: a shape that is both out of bounds and has a
non-palette color does *not* return `InvalidColor` — the bounds check runs
first, so `errOutOfBounds` is returned (contradicting the claim's first
half; its own second half concedes this). -/
theorem oob_wins_over_invalid_color_cex :
    Rectangle.draw displayScreen ⟨⟨-1,0⟩,⟨5,5⟩,⟨"pink"⟩⟩ (Display.create 10 10)
      = (some .errOutOfBounds, Display.create 10 10) ∧
    colorUnknown (⟨"pink"⟩ : Color) = true ∧
    Err.errOutOfBounds ≠ Err.invalidColor := by
  decide

/-- Claim C5 (amended): a shape whose geometry passes the bounds check but
whose color is not in the palette paints nothing and returns `invalidColor`;
the bounds check precedes the color check, so a shape failing the bounds
check returns `errOutOfBounds` (and paints nothing) even when the color is
also invalid.  Stated for all three shapes. -/
theorem invalid_color_and_bounds_order :
    (∀ (r : Rectangle) (d : Display),
      (outOfBounds displayScreen r.ll d || outOfBounds displayScreen r.ur d) = false →
      colorUnknown r.c = true →
      Rectangle.draw displayScreen r d = (some .invalidColor, d)) ∧
    (∀ (r : Rectangle) (d : Display),
      (outOfBounds displayScreen r.ll d || outOfBounds displayScreen r.ur d) = true →
      Rectangle.draw displayScreen r d = (some .errOutOfBounds, d)) ∧
    (∀ (t : Triangle) (d : Display),
      (outOfBounds displayScreen t.pt0 d || outOfBounds displayScreen t.pt1 d ||
        outOfBounds displayScreen t.pt2 d) = false →
      colorUnknown t.c = true →
      Triangle.draw displayScreen t d = some (some .invalidColor, d)) ∧
    (∀ (t : Triangle) (d : Display),
      (outOfBounds displayScreen t.pt0 d || outOfBounds displayScreen t.pt1 d ||
        outOfBounds displayScreen t.pt2 d) = true →
      Triangle.draw displayScreen t d = some (some .errOutOfBounds, d)) ∧
    (∀ (ci : Circle) (d : Display),
      ¬ (ci.center.x - ci.r < 0 ∨ ci.center.y - ci.r < 0 ∨
          d.maxX ≤ ci.center.x + ci.r ∨ d.maxY ≤ ci.center.y + ci.r) →
      colorUnknown ci.c = true →
      Circle.draw displayScreen ci d = (some .invalidColor, d)) ∧
    (∀ (ci : Circle) (d : Display),
      (ci.center.x - ci.r < 0 ∨ ci.center.y - ci.r < 0 ∨
          d.maxX ≤ ci.center.x + ci.r ∨ d.maxY ≤ ci.center.y + ci.r) →
      Circle.draw displayScreen ci d = (some .errOutOfBounds, d)) := by
  refine ⟨?_, ?_, ?_, ?_, ?_, ?_⟩
  · intro r d hb hc
    unfold Rectangle.draw
    rw [hb, if_neg (by simp), if_pos (by simp [hc])]
  · intro r d hb
    unfold Rectangle.draw
    rw [hb, if_pos rfl]
  · intro t d hb hc
    unfold Triangle.draw
    rw [hb, if_neg (by simp), if_pos (by simp [hc])]
  · intro t d hb
    unfold Triangle.draw
    rw [hb, if_pos rfl]
  · intro ci d hb hc
    unfold Circle.draw
    rw [if_neg (by simpa [displayScreen] using hb), if_pos (by simp [hc])]
  · intro ci d hb
    unfold Circle.draw
    rw [if_pos (by simpa [displayScreen] using hb)]

/-- Witness for `invalid_color_and_bounds_order`: an in-bounds rectangle with
the non-palette color "pink" returns `invalidColor` and paints nothing. -/
theorem invalid_color_and_bounds_order_witness :
    ((outOfBounds displayScreen (⟨1,1⟩ : Point) (Display.create 10 10) ||
        outOfBounds displayScreen (⟨3,3⟩ : Point) (Display.create 10 10)) = false ∧
      colorUnknown (⟨"pink"⟩ : Color) = true) ∧
    Rectangle.draw displayScreen ⟨⟨1,1⟩,⟨3,3⟩,⟨"pink"⟩⟩ (Display.create 10 10)
      = (some .invalidColor, Display.create 10 10) :=
  ⟨⟨by decide, by decide⟩,
   invalid_color_and_bounds_order.1 ⟨⟨1,1⟩,⟨3,3⟩,⟨"pink"⟩⟩ (Display.create 10 10)
     (by decide) (by decide)⟩

/-- Counterexample to claim C3: the painted region of a valid triangle need
not contain its vertices, and rows between the extreme vertex rows can be
painted empty.  Triangle (0,0), (1,1), (0,4) on a 10×10 white canvas is in
bounds with a valid color and its draw completes, yet vertex (1,1) stays
white and row `y = 1` receives no paint at all (the midpoint tie-break picks
`x012` as the left boundary, whose row-1 entry exceeds the right boundary). -/
theorem triangle_draw_misses_vertex_cex :
    (outOfBounds displayScreen (⟨0,0⟩ : Point) (Display.create 10 10) = false ∧
      outOfBounds displayScreen (⟨1,1⟩ : Point) (Display.create 10 10) = false ∧
      outOfBounds displayScreen (⟨0,4⟩ : Point) (Display.create 10 10) = false ∧
      colorUnknown (⟨"red"⟩ : Color) = false) ∧
    (Triangle.draw displayScreen ⟨⟨0,0⟩,⟨1,1⟩,⟨0,4⟩,⟨"red"⟩⟩
        (Display.create 10 10)).map Prod.fst = some none ∧
    (Triangle.draw displayScreen ⟨⟨0,0⟩,⟨1,1⟩,⟨0,4⟩,⟨"red"⟩⟩
        (Display.create 10 10)).map (fun p => p.2.cell 1 1) = some ⟨"white"⟩ ∧
    (Triangle.draw displayScreen ⟨⟨0,0⟩,⟨1,1⟩,⟨0,4⟩,⟨"red"⟩⟩
        (Display.create 10 10)).map
      (fun p => (List.range 10).all (fun x => p.2.cell (x : Int) 1 == ⟨"white"⟩))
      = some true := by
  decide

/-! ## Circle loop characterization (claim C2) -/

theorem ite_step_combine {α : Type} {P Q R : Prop} [Decidable P] [Decidable Q]
    [Decidable R] (v w : α) (h : R ↔ P ∨ Q) :
    (if P then v else if Q then v else w) = if R then v else w := by
  by_cases hp : P
  · rw [if_pos hp, if_pos (h.2 (Or.inl hp))]
  · rw [if_neg hp]
    by_cases hq : Q
    · rw [if_pos hq, if_pos (h.2 (Or.inr hq))]
    · rw [if_neg hq, if_neg (fun hr => (h.1 hr).elim hp hq)]

theorem circInnerLoop_spec (ci : Circle) (hc : colorUnknown ci.c = false)
    (maxX maxY y : Int) :
    ∀ (n : Nat) (x : Int) (d : Display), DisplayWF d → d.maxX = maxX → d.maxY = maxY →
    ∃ d', circInnerLoop displayScreen ci maxX maxY y n x d = d' ∧
      d'.maxX = maxX ∧ d'.maxY = maxY ∧ DisplayWF d' ∧
      ∀ a b : Int, 0 ≤ a → 0 ≤ b →
        d'.cell a b = if b = y ∧ x ≤ a ∧ a < x + n ∧
                         insideCircle ci.center ⟨a, b⟩ ci.r = true ∧ a < maxX ∧ b < maxY
                      then ci.c else d.cell a b := by
  intro n
  induction n with
  | zero =>
    intro x d hwf hmx hmy
    exact ⟨d, rfl, hmx, hmy, hwf, fun a b _ _ => by rw [if_neg (by omega)]⟩
  | succ n ih =>
    intro x d hwf hmx hmy
    by_cases hin : insideCircle ci.center ⟨x, y⟩ ci.r = true
    · by_cases hgd : 0 ≤ x ∧ x < maxX ∧ 0 ≤ y ∧ y < maxY
      · have hstep : displayScreen.drawPixel d x y ci.c = (none, d.setCell x y ci.c) :=
          drawPixel_ok d x y ci.c hgd.1 (by omega) hgd.2.2.1 (by omega) hc
        have hwf2 : DisplayWF (d.setCell x y ci.c) :=
          setCell_wf _ _ _ _ hwf (by obtain ⟨hlen, -⟩ := hwf; omega)
        obtain ⟨d', hd', hmx', hmy', hwf', hchar⟩ :=
          ih (x+1) (d.setCell x y ci.c) hwf2 (by rw [setCell_maxX]; exact hmx)
            (by rw [setCell_maxY]; exact hmy)
        refine ⟨d', ?_, hmx', hmy', hwf', ?_⟩
        · show circInnerLoop displayScreen ci maxX maxY y (n+1) x d = d'
          unfold circInnerLoop
          rw [if_pos hin, if_pos hgd, hstep]
          exact hd'
        · intro a b ha hb
          rw [hchar a b ha hb,
              cell_setCell d x y a b ci.c hwf hgd.1 (by omega) hgd.2.2.1 (by omega) ha hb]
          refine ite_step_combine _ _ ?_
          constructor
          · rintro ⟨hb1, hb2, hb3, hb4, hb5, hb6⟩
            by_cases hax : a = x
            · exact Or.inr ⟨hax, hb1⟩
            · exact Or.inl ⟨hb1, by omega, by omega, hb4, hb5, hb6⟩
          · rintro (⟨hb1, hb2, hb3, hb4, hb5, hb6⟩ | ⟨hax, hby⟩)
            · exact ⟨hb1, by omega, by omega, hb4, hb5, hb6⟩
            · subst hax
              subst hby
              exact ⟨rfl, le_refl _, by omega, hin, by omega, by omega⟩
      · obtain ⟨d', hd', hmx', hmy', hwf', hchar⟩ := ih (x+1) d hwf hmx hmy
        refine ⟨d', ?_, hmx', hmy', hwf', ?_⟩
        · show circInnerLoop displayScreen ci maxX maxY y (n+1) x d = d'
          unfold circInnerLoop
          rw [if_pos hin, if_neg hgd]
          exact hd'
        · intro a b ha hb
          rw [hchar a b ha hb]
          refine if_congr ?_ rfl rfl
          constructor
          · rintro ⟨hb1, hb2, hb3, hb4, hb5, hb6⟩
            exact ⟨hb1, by omega, by omega, hb4, hb5, hb6⟩
          · rintro ⟨hb1, hb2, hb3, hb4, hb5, hb6⟩
            refine ⟨hb1, ?_, by omega, hb4, hb5, hb6⟩
            rcases eq_or_lt_of_le hb2 with heq | hlt
            · exfalso
              subst heq
              subst hb1
              exact hgd ⟨ha, hb5, hb, hb6⟩
            · omega
    · obtain ⟨d', hd', hmx', hmy', hwf', hchar⟩ := ih (x+1) d hwf hmx hmy
      refine ⟨d', ?_, hmx', hmy', hwf', ?_⟩
      · show circInnerLoop displayScreen ci maxX maxY y (n+1) x d = d'
        unfold circInnerLoop
        rw [if_neg hin]
        exact hd'
      · intro a b ha hb
        rw [hchar a b ha hb]
        refine if_congr ?_ rfl rfl
        constructor
        · rintro ⟨hb1, hb2, hb3, hb4, hb5, hb6⟩
          exact ⟨hb1, by omega, by omega, hb4, hb5, hb6⟩
        · rintro ⟨hb1, hb2, hb3, hb4, hb5, hb6⟩
          refine ⟨hb1, ?_, by omega, hb4, hb5, hb6⟩
          rcases eq_or_lt_of_le hb2 with heq | hlt
          · exfalso
            subst heq
            subst hb1
            exact hin hb4
          · omega

theorem circOuterLoop_spec (ci : Circle) (hc : colorUnknown ci.c = false)
    (maxX maxY : Int) :
    ∀ (n : Nat) (y : Int) (d : Display), DisplayWF d → d.maxX = maxX → d.maxY = maxY →
    ∃ d', circOuterLoop displayScreen ci maxX maxY n y d = d' ∧
      d'.maxX = maxX ∧ d'.maxY = maxY ∧ DisplayWF d' ∧
      ∀ a b : Int, 0 ≤ a → 0 ≤ b →
        d'.cell a b = if y ≤ b ∧ b < y + n ∧
                         ci.center.x - ci.r ≤ a ∧
                         a < ci.center.x - ci.r + (2 * ci.r + 1).toNat ∧
                         insideCircle ci.center ⟨a, b⟩ ci.r = true ∧ a < maxX ∧ b < maxY
                      then ci.c else d.cell a b := by
  intro n
  induction n with
  | zero =>
    intro y d hwf hmx hmy
    exact ⟨d, rfl, hmx, hmy, hwf, fun a b _ _ => by rw [if_neg (by omega)]⟩
  | succ n ih =>
    intro y d hwf hmx hmy
    obtain ⟨d2, hd2, hmx2, hmy2, hwf2, hchar2⟩ :=
      circInnerLoop_spec ci hc maxX maxY y (2 * ci.r + 1).toNat (ci.center.x - ci.r)
        d hwf hmx hmy
    obtain ⟨d', hd', hmx', hmy', hwf', hchar⟩ := ih (y+1) d2 hwf2 hmx2 hmy2
    refine ⟨d', ?_, hmx', hmy', hwf', ?_⟩
    · show circOuterLoop displayScreen ci maxX maxY (n+1) y d = d'
      unfold circOuterLoop
      rw [hd2]
      exact hd'
    · intro a b ha hb
      rw [hchar a b ha hb, hchar2 a b ha hb]
      refine ite_step_combine _ _ ?_
      constructor
      · rintro ⟨h1, h2, h3, h4, h5, h6, h7⟩
        by_cases hby : b = y
        · exact Or.inr ⟨hby, h3, h4, h5, h6, h7⟩
        · exact Or.inl ⟨by omega, by omega, h3, h4, h5, h6, h7⟩
      · rintro (⟨h1, h2, h3, h4, h5, h6, h7⟩ | ⟨hby, h3, h4, h5, h6, h7⟩)
        · exact ⟨by omega, by omega, h3, h4, h5, h6, h7⟩
        · subst hby
          exact ⟨le_refl _, by omega, h3, h4, h5, h6, h7⟩

/-- Claim C2: a circle with non-negative radius whose bounding extent
`center ± r` lies within the canvas and whose color is in the palette draws
successfully, and an in-bounds pixel is painted iff its squared Euclidean
distance from the center is at most `r²` — the claim's own restatement of
`sqrt((x-cx)² + (y-cy)²) ≤ r`. -/
theorem circle_draw_paints_disk (ci : Circle) (d : Display) (hwf : DisplayWF d)
    (hr : 0 ≤ ci.r)
    (hb1 : 0 ≤ ci.center.x - ci.r) (hb2 : 0 ≤ ci.center.y - ci.r)
    (hb3 : ci.center.x + ci.r < d.maxX) (hb4 : ci.center.y + ci.r < d.maxY)
    (hc : colorUnknown ci.c = false) :
    ∃ d', Circle.draw displayScreen ci d = (none, d') ∧
      d'.maxX = d.maxX ∧ d'.maxY = d.maxY ∧
      ∀ a b : Int, 0 ≤ a → a < d.maxX → 0 ≤ b → b < d.maxY →
        d'.cell a b = if (a - ci.center.x) ^ 2 + (b - ci.center.y) ^ 2 ≤ ci.r ^ 2
                      then ci.c else d.cell a b := by
  obtain ⟨d', hd', hmx', hmy', _, hchar⟩ :=
    circOuterLoop_spec ci hc d.maxX d.maxY (2 * ci.r + 1).toNat (ci.center.y - ci.r)
      d hwf rfl rfl
  refine ⟨d', ?_, hmx', hmy', ?_⟩
  · unfold Circle.draw
    rw [if_neg (by simp only [displayScreen]; omega), if_neg (by simp [hc])]
    show (none, circOuterLoop displayScreen ci d.maxX d.maxY (2 * ci.r + 1).toNat
            (ci.center.y - ci.r) d) = (none, d')
    rw [hd']
  · intro a b ha ha2 hb hb2
    rw [hchar a b ha hb]
    refine if_congr ?_ rfl rfl
    constructor
    · rintro ⟨h1, h2, h3, h4, hin, h5, h6⟩
      simp only [insideCircle, decide_eq_true_eq] at hin
      calc (a - ci.center.x) ^ 2 + (b - ci.center.y) ^ 2
          = (ci.center.x - a) ^ 2 + (ci.center.y - b) ^ 2 := by ring
        _ ≤ ci.r ^ 2 := hin.2
    · intro hdist
      have hxsq : (a - ci.center.x) ^ 2 ≤ ci.r ^ 2 := by
        nlinarith [sq_nonneg (b - ci.center.y)]
      have hysq : (b - ci.center.y) ^ 2 ≤ ci.r ^ 2 := by
        nlinarith [sq_nonneg (a - ci.center.x)]
      have hx1 : ci.center.x - ci.r ≤ a := by
        nlinarith [sq_nonneg (a - ci.center.x + ci.r)]
      have hx2 : a ≤ ci.center.x + ci.r := by
        nlinarith [sq_nonneg (a - ci.center.x - ci.r)]
      have hy1 : ci.center.y - ci.r ≤ b := by
        nlinarith [sq_nonneg (b - ci.center.y + ci.r)]
      have hy2 : b ≤ ci.center.y + ci.r := by
        nlinarith [sq_nonneg (b - ci.center.y - ci.r)]
      refine ⟨by omega, by omega, by omega, by omega, ?_, ha2, hb2⟩
      simp only [insideCircle, decide_eq_true_eq]
      refine ⟨hr, ?_⟩
      calc (ci.center.x - a) ^ 2 + (ci.center.y - b) ^ 2
          = (a - ci.center.x) ^ 2 + (b - ci.center.y) ^ 2 := by ring
        _ ≤ ci.r ^ 2 := hdist

/-- Witness for `circle_draw_paints_disk`: the specification's scenario, a
blue circle of radius 3 at (10,10) on a 20×20 canvas. -/
theorem circle_draw_paints_disk_witness :
    ((0 : Int) ≤ 3 ∧ DisplayWF (Display.create 20 20)) ∧
    ∃ d', Circle.draw displayScreen ⟨⟨10,10⟩,3,⟨"blue"⟩⟩ (Display.create 20 20)
            = (none, d') ∧
      d'.maxX = (Display.create 20 20).maxX ∧ d'.maxY = (Display.create 20 20).maxY ∧
      ∀ a b : Int, 0 ≤ a → a < (Display.create 20 20).maxX →
        0 ≤ b → b < (Display.create 20 20).maxY →
        d'.cell a b = if (a - (⟨⟨10,10⟩,3,⟨"blue"⟩⟩ : Circle).center.x) ^ 2 +
                           (b - (⟨⟨10,10⟩,3,⟨"blue"⟩⟩ : Circle).center.y) ^ 2 ≤
                           (⟨⟨10,10⟩,3,⟨"blue"⟩⟩ : Circle).r ^ 2
                      then ⟨"blue"⟩ else (Display.create 20 20).cell a b :=
  ⟨⟨by decide, by decide⟩,
   circle_draw_paints_disk ⟨⟨10,10⟩,3,⟨"blue"⟩⟩ (Display.create 20 20) (by decide)
     (by decide) (by decide) (by decide) (by decide) (by decide) (by decide)⟩

/-! ## Triangle loop characterization (claim C3) -/

theorem sortTriPts_c (t : Triangle) : (sortTriPts t).c = t.c := by
  simp only [sortTriPts]
  split_ifs <;> rfl

theorem drawPixel_snd (d : Display) (x y : Int) (c : Color)
    (hc : colorUnknown c = false) :
    (d.drawPixel x y c).2 =
      if 0 ≤ x ∧ x < d.maxX ∧ 0 ≤ y ∧ y < d.maxY then d.setCell x y c else d := by
  unfold Display.drawPixel
  by_cases h : x < 0 ∨ y < 0 ∨ d.maxX ≤ x ∨ d.maxY ≤ y
  · rw [if_pos h, if_neg (by omega)]
  · rw [if_neg h, if_neg (by simp [hc]), if_pos (by omega)]

theorem triInnerLoop_spec (c : Color) (hc : colorUnknown c = false)
    (maxX maxY y : Int) :
    ∀ (n : Nat) (x : Int) (d : Display), DisplayWF d → d.maxX = maxX → d.maxY = maxY →
    ∃ d', triInnerLoop displayScreen c y n x d = d' ∧
      d'.maxX = maxX ∧ d'.maxY = maxY ∧ DisplayWF d' ∧
      ∀ a b : Int, 0 ≤ a → 0 ≤ b →
        d'.cell a b = if b = y ∧ x ≤ a ∧ a < x + n ∧ a < maxX ∧ b < maxY
                      then c else d.cell a b := by
  intro n
  induction n with
  | zero =>
    intro x d hwf hmx hmy
    exact ⟨d, rfl, hmx, hmy, hwf, fun a b _ _ => by rw [if_neg (by omega)]⟩
  | succ n ih =>
    intro x d hwf hmx hmy
    by_cases hgd : 0 ≤ x ∧ x < maxX ∧ 0 ≤ y ∧ y < maxY
    · have hstep : (displayScreen.drawPixel d x y c).2 = d.setCell x y c := by
        show (d.drawPixel x y c).2 = d.setCell x y c
        rw [drawPixel_snd d x y c hc, if_pos (by omega)]
      have hwf2 : DisplayWF (d.setCell x y c) :=
        setCell_wf _ _ _ _ hwf (by obtain ⟨hlen, -⟩ := hwf; omega)
      obtain ⟨d', hd', hmx', hmy', hwf', hchar⟩ :=
        ih (x+1) (d.setCell x y c) hwf2 (by rw [setCell_maxX]; exact hmx)
          (by rw [setCell_maxY]; exact hmy)
      refine ⟨d', ?_, hmx', hmy', hwf', ?_⟩
      · show triInnerLoop displayScreen c y (n+1) x d = d'
        unfold triInnerLoop
        rw [hstep]
        exact hd'
      · intro a b ha hb
        rw [hchar a b ha hb,
            cell_setCell d x y a b c hwf hgd.1 (by omega) hgd.2.2.1 (by omega) ha hb]
        refine ite_step_combine _ _ ?_
        constructor
        · rintro ⟨hb1, hb2, hb3, hb4, hb5⟩
          by_cases hax : a = x
          · exact Or.inr ⟨hax, hb1⟩
          · exact Or.inl ⟨hb1, by omega, by omega, hb4, hb5⟩
        · rintro (⟨hb1, hb2, hb3, hb4, hb5⟩ | ⟨hax, hby⟩)
          · exact ⟨hb1, by omega, by omega, hb4, hb5⟩
          · subst hax
            subst hby
            exact ⟨rfl, le_refl _, by omega, by omega, by omega⟩
    · have hstep : (displayScreen.drawPixel d x y c).2 = d := by
        show (d.drawPixel x y c).2 = d
        rw [drawPixel_snd d x y c hc, if_neg (by omega)]
      obtain ⟨d', hd', hmx', hmy', hwf', hchar⟩ := ih (x+1) d hwf hmx hmy
      refine ⟨d', ?_, hmx', hmy', hwf', ?_⟩
      · show triInnerLoop displayScreen c y (n+1) x d = d'
        unfold triInnerLoop
        rw [hstep]
        exact hd'
      · intro a b ha hb
        rw [hchar a b ha hb]
        refine if_congr ?_ rfl rfl
        constructor
        · rintro ⟨hb1, hb2, hb3, hb4, hb5⟩
          exact ⟨hb1, by omega, by omega, hb4, hb5⟩
        · rintro ⟨hb1, hb2, hb3, hb4, hb5⟩
          refine ⟨hb1, ?_, by omega, hb4, hb5⟩
          rcases eq_or_lt_of_le hb2 with heq | hlt
          · exfalso
            subst heq
            subst hb1
            exact hgd ⟨ha, hb4, hb, hb5⟩
          · omega

theorem triRowLoop_spec (c : Color) (hc : colorUnknown c = false)
    (maxX maxY : Int) (xleft xright : List Int) (ybase : Int) :
    ∀ (n : Nat) (y : Int) (d : Display), DisplayWF d → d.maxX = maxX → d.maxY = maxY →
    ∃ d', triRowLoop displayScreen c xleft xright ybase n y d = d' ∧
      d'.maxX = maxX ∧ d'.maxY = maxY ∧ DisplayWF d' ∧
      ∀ a b : Int, 0 ≤ a → 0 ≤ b →
        d'.cell a b = if y ≤ b ∧ b < y + n ∧
                         xleft.getD (b - ybase).toNat 0 ≤ a ∧
                         a ≤ xright.getD (b - ybase).toNat 0 ∧
                         a < maxX ∧ b < maxY
                      then c else d.cell a b := by
  intro n
  induction n with
  | zero =>
    intro y d hwf hmx hmy
    exact ⟨d, rfl, hmx, hmy, hwf, fun a b _ _ => by rw [if_neg (by omega)]⟩
  | succ n ih =>
    intro y d hwf hmx hmy
    obtain ⟨d2, hd2, hmx2, hmy2, hwf2, hchar2⟩ :=
      triInnerLoop_spec c hc maxX maxY y
        ((xright.getD (y - ybase).toNat 0 - xleft.getD (y - ybase).toNat 0 + 1).toNat)
        (xleft.getD (y - ybase).toNat 0) d hwf hmx hmy
    obtain ⟨d', hd', hmx', hmy', hwf', hchar⟩ := ih (y+1) d2 hwf2 hmx2 hmy2
    refine ⟨d', ?_, hmx', hmy', hwf', ?_⟩
    · show triRowLoop displayScreen c xleft xright ybase n (y+1)
          (triInnerLoop displayScreen c y
            ((xright.getD (y - ybase).toNat 0 - xleft.getD (y - ybase).toNat 0 + 1).toNat)
            (xleft.getD (y - ybase).toNat 0) d) = d'
      rw [hd2]
      exact hd'
    · intro a b ha hb
      rw [hchar a b ha hb, hchar2 a b ha hb]
      refine ite_step_combine _ _ ?_
      constructor
      · rintro ⟨h1, h2, h3, h4, h5, h6⟩
        by_cases hby : b = y
        · subst hby
          exact Or.inr ⟨rfl, h3, by omega, h5, h6⟩
        · exact Or.inl ⟨by omega, by omega, h3, h4, h5, h6⟩
      · rintro (⟨h1, h2, h3, h4, h5, h6⟩ | ⟨hby, h3, h4, h5, h6⟩)
        · exact ⟨by omega, by omega, h3, h4, h5, h6⟩
        · subst hby
          exact ⟨le_refl _, by omega, h3, by omega, h5, h6⟩

/-- Claim C3 (amended): for a valid triangle whose vertex sort succeeds (the
stale-condition sort of `sortTriPts` leaves some inputs unsorted, which can
panic the program at the `x02[m]` access), the draw completes without error
and there are per-row bounds `xl`, `xr` such that exactly the cells with
`xl b ≤ a ≤ xr b` in rows `b` between the minimum and maximum vertex rows
are painted: every painted row is one contiguous — possibly empty — column
interval, and rows outside the vertex span are untouched.  (The interval can
be empty and need not cover the vertices: `triangle_draw_misses_vertex_cex`.) -/
theorem triangle_draw_rows_contiguous (tri : Triangle) (d : Display)
    (hwf : DisplayWF d)
    (h0 : 0 ≤ tri.pt0.x ∧ tri.pt0.x < d.maxX ∧ 0 ≤ tri.pt0.y ∧ tri.pt0.y < d.maxY)
    (h1 : 0 ≤ tri.pt1.x ∧ tri.pt1.x < d.maxX ∧ 0 ≤ tri.pt1.y ∧ tri.pt1.y < d.maxY)
    (h2 : 0 ≤ tri.pt2.x ∧ tri.pt2.x < d.maxX ∧ 0 ≤ tri.pt2.y ∧ tri.pt2.y < d.maxY)
    (hc : colorUnknown tri.c = false)
    (hs1 : (sortTriPts tri).pt0.y ≤ (sortTriPts tri).pt1.y)
    (hs2 : (sortTriPts tri).pt1.y ≤ (sortTriPts tri).pt2.y) :
    ∃ (d' : Display) (xlL xrL : List Int),
      Triangle.draw displayScreen tri d = some (none, d') ∧
      d'.maxX = d.maxX ∧ d'.maxY = d.maxY ∧
      ∀ a b : Int, 0 ≤ a → a < d.maxX → 0 ≤ b → b < d.maxY →
        d'.cell a b = if (sortTriPts tri).pt0.y ≤ b ∧ b ≤ (sortTriPts tri).pt2.y ∧
                         xlL.getD (b - (sortTriPts tri).pt0.y).toNat 0 ≤ a ∧
                         a ≤ xrL.getD (b - (sortTriPts tri).pt0.y).toNat 0
                      then tri.c else d.cell a b := by
  have hob0 : outOfBounds displayScreen tri.pt0 d = false :=
    (outOfBounds_displayScreen tri.pt0 d).2 ⟨h0.1, h0.2.1, h0.2.2.1, h0.2.2.2⟩
  have hob1 : outOfBounds displayScreen tri.pt1 d = false :=
    (outOfBounds_displayScreen tri.pt1 d).2 ⟨h1.1, h1.2.1, h1.2.2.1, h1.2.2.2⟩
  have hob2 : outOfBounds displayScreen tri.pt2 d = false :=
    (outOfBounds_displayScreen tri.pt2 d).2 ⟨h2.1, h2.2.1, h2.2.2.1, h2.2.2.2⟩
  have hcs : colorUnknown (sortTriPts tri).c = false := by rw [sortTriPts_c]; exact hc
  have l012 : (triX012 (sortTriPts tri)).length
      = ((sortTriPts tri).pt2.y - (sortTriPts tri).pt0.y + 1).toNat := by
    unfold triX012
    rw [List.length_append, List.length_dropLast, interpolate_length, interpolate_length]
    omega
  have l02 : (triX02 (sortTriPts tri)).length
      = ((sortTriPts tri).pt2.y - (sortTriPts tri).pt0.y + 1).toNat := by
    unfold triX02
    rw [interpolate_length]
  have hm012 : (triX012 (sortTriPts tri)).length / 2 < (triX012 (sortTriPts tri)).length := by
    rw [l012]
    omega
  have hm02 : (triX012 (sortTriPts tri)).length / 2 < (triX02 (sortTriPts tri)).length := by
    rw [l012, l02]
    omega
  obtain ⟨d', hd', hmx', hmy', hwf', hchar⟩ :=
    triRowLoop_spec (sortTriPts tri).c hcs d.maxX d.maxY
      (if getElem (triX02 (sortTriPts tri)) ((triX012 (sortTriPts tri)).length / 2) hm02
          < getElem (triX012 (sortTriPts tri)) ((triX012 (sortTriPts tri)).length / 2) hm012
        then (triX02 (sortTriPts tri), triX012 (sortTriPts tri))
        else (triX012 (sortTriPts tri), triX02 (sortTriPts tri))).1
      (if getElem (triX02 (sortTriPts tri)) ((triX012 (sortTriPts tri)).length / 2) hm02
          < getElem (triX012 (sortTriPts tri)) ((triX012 (sortTriPts tri)).length / 2) hm012
        then (triX02 (sortTriPts tri), triX012 (sortTriPts tri))
        else (triX012 (sortTriPts tri), triX02 (sortTriPts tri))).2
      (sortTriPts tri).pt0.y
      ((sortTriPts tri).pt2.y - (sortTriPts tri).pt0.y + 1).toNat
      (sortTriPts tri).pt0.y d hwf rfl rfl
  refine ⟨d',
    (if getElem (triX02 (sortTriPts tri)) ((triX012 (sortTriPts tri)).length / 2) hm02
        < getElem (triX012 (sortTriPts tri)) ((triX012 (sortTriPts tri)).length / 2) hm012
      then (triX02 (sortTriPts tri), triX012 (sortTriPts tri))
      else (triX012 (sortTriPts tri), triX02 (sortTriPts tri))).1,
    (if getElem (triX02 (sortTriPts tri)) ((triX012 (sortTriPts tri)).length / 2) hm02
        < getElem (triX012 (sortTriPts tri)) ((triX012 (sortTriPts tri)).length / 2) hm012
      then (triX02 (sortTriPts tri), triX012 (sortTriPts tri))
      else (triX012 (sortTriPts tri), triX02 (sortTriPts tri))).2,
    ?_, hmx', hmy', ?_⟩
  · unfold Triangle.draw
    rw [hob0, hob1, hob2]
    simp only [Bool.or_self, Bool.false_eq_true, if_false, hc]
    rw [List.getElem?_eq_getElem hm02, List.getElem?_eq_getElem hm012]
    exact congrArg (fun z => some ((none : Option Err), z)) hd'
  · intro a b ha ha2 hb hb2
    rw [hchar a b ha hb]
    refine if_congr ?_ (sortTriPts_c tri) rfl
    constructor
    · rintro ⟨hr1, hr2, hr3, hr4, hr5, hr6⟩
      exact ⟨hr1, by omega, hr3, hr4⟩
    · rintro ⟨hr1, hr2, hr3, hr4⟩
      exact ⟨hr1, by omega, hr3, hr4, ha2, hb2⟩

/-- Witness for `triangle_draw_rows_contiguous`: the specification's scenario,
a green triangle (0,0), (4,0), (2,4) on a 10×10 canvas (its horizontal edge
sorts trivially). -/
theorem triangle_draw_rows_contiguous_witness :
    (DisplayWF (Display.create 10 10) ∧
      (sortTriPts ⟨⟨0,0⟩,⟨4,0⟩,⟨2,4⟩,⟨"green"⟩⟩).pt0.y
        ≤ (sortTriPts ⟨⟨0,0⟩,⟨4,0⟩,⟨2,4⟩,⟨"green"⟩⟩).pt1.y ∧
      (sortTriPts ⟨⟨0,0⟩,⟨4,0⟩,⟨2,4⟩,⟨"green"⟩⟩).pt1.y
        ≤ (sortTriPts ⟨⟨0,0⟩,⟨4,0⟩,⟨2,4⟩,⟨"green"⟩⟩).pt2.y) ∧
    ∃ (d' : Display) (xlL xrL : List Int),
      Triangle.draw displayScreen ⟨⟨0,0⟩,⟨4,0⟩,⟨2,4⟩,⟨"green"⟩⟩ (Display.create 10 10)
        = some (none, d') ∧
      d'.maxX = (Display.create 10 10).maxX ∧ d'.maxY = (Display.create 10 10).maxY ∧
      ∀ a b : Int, 0 ≤ a → a < (Display.create 10 10).maxX →
        0 ≤ b → b < (Display.create 10 10).maxY →
        d'.cell a b = if (sortTriPts ⟨⟨0,0⟩,⟨4,0⟩,⟨2,4⟩,⟨"green"⟩⟩).pt0.y ≤ b ∧
                         b ≤ (sortTriPts ⟨⟨0,0⟩,⟨4,0⟩,⟨2,4⟩,⟨"green"⟩⟩).pt2.y ∧
                         xlL.getD ((b - (sortTriPts ⟨⟨0,0⟩,⟨4,0⟩,⟨2,4⟩,⟨"green"⟩⟩).pt0.y).toNat) 0 ≤ a ∧
                         a ≤ xrL.getD ((b - (sortTriPts ⟨⟨0,0⟩,⟨4,0⟩,⟨2,4⟩,⟨"green"⟩⟩).pt0.y).toNat) 0
                      then ⟨"green"⟩ else (Display.create 10 10).cell a b :=
  ⟨⟨by decide, by decide, by decide⟩,
   triangle_draw_rows_contiguous ⟨⟨0,0⟩,⟨4,0⟩,⟨2,4⟩,⟨"green"⟩⟩ (Display.create 10 10)
     (by decide) (by decide) (by decide) (by decide) (by decide) (by decide) (by decide)⟩


/-! ## The canvas color invariant (claim C8) -/

/-- The canvas invariant: well-formed grid, every cell a palette color. -/
def DisplayInv (d : Display) : Prop :=
  DisplayWF d ∧ validCells d = true

theorem validCells_iff (d : Display) :
    validCells d = true ↔ ∀ col ∈ d.matrix, ∀ cc ∈ col, colorUnknown cc = false := by
  unfold validCells
  simp [List.all_eq_true]

/-- An in-bounds cell of a well-formed, all-valid display is a palette color. -/
theorem cell_valid (d : Display) (hwf : DisplayWF d) (hv : validCells d = true)
    (a b : Int) (ha : 0 ≤ a) (ha2 : a < d.maxX) (hb : 0 ≤ b) (hb2 : b < d.maxY) :
    colorUnknown (d.cell a b) = false := by
  obtain ⟨hlen, hcols⟩ := hwf
  have h1 : a.toNat < d.matrix.length := by omega
  have hcollen := hcols _ (matrix_getD_mem d _ h1)
  have h2 : b.toNat < (d.matrix.getD a.toNat []).length := by omega
  rw [validCells_iff] at hv
  refine hv _ (matrix_getD_mem d _ h1) _ ?_
  unfold Display.cell
  rw [List.getD_eq_getElem _ _ h2]
  exact List.getElem_mem h2

/-- If every in-bounds cell of `dNew` is either the palette color `c` or the
corresponding cell of the valid display `dOld`, then `dNew` is all-valid. -/
theorem validCells_of_pointwise (dOld dNew : Display) (c : Color)
    (hc : colorUnknown c = false)
    (hwfO : DisplayWF dOld) (hvO : validCells dOld = true)
    (hwfN : DisplayWF dNew) (hmx : dNew.maxX = dOld.maxX) (hmy : dNew.maxY = dOld.maxY)
    (hchar : ∀ a b : Int, 0 ≤ a → a < dOld.maxX → 0 ≤ b → b < dOld.maxY →
      dNew.cell a b = c ∨ dNew.cell a b = dOld.cell a b) :
    validCells dNew = true := by
  rw [validCells_iff]
  intro col hcol cc hcc
  obtain ⟨hlenN, hcolsN⟩ := hwfN
  obtain ⟨i, hi, hieq⟩ := List.mem_iff_getElem.1 hcol
  obtain ⟨j, hj, hjeq⟩ := List.mem_iff_getElem.1 hcc
  have hcollen : col.length = dNew.maxY.toNat := hcolsN _ hcol
  have hcell : dNew.cell (i : Int) (j : Int) = cc := by
    unfold Display.cell
    rw [Int.toNat_natCast, Int.toNat_natCast,
        List.getD_eq_getElem _ _ (show i < dNew.matrix.length by omega), hieq,
        List.getD_eq_getElem _ _ hj]
    exact hjeq
  rcases hchar (i : Int) (j : Int) (by omega) (by omega) (by omega) (by omega)
    with hnew | hold
  · rw [hcell] at hnew
    rw [← hnew] at hc
    exact hc
  · rw [hcell] at hold
    rw [hold]
    exact cell_valid dOld hwfO hvO _ _ (by omega) (by omega) (by omega) (by omega)

theorem setCell_validCells (d : Display) (x y : Int) (c : Color)
    (h : validCells d = true) (hc : colorUnknown c = false) :
    validCells (d.setCell x y c) = true := by
  rw [validCells_iff] at h ⊢
  intro col hcol cc hcc
  rcases List.mem_or_eq_of_mem_set hcol with hmem | rfl
  · exact h _ hmem _ hcc
  · rcases List.mem_or_eq_of_mem_set hcc with hmem2 | rfl
    · by_cases hlt : x.toNat < d.matrix.length
      · exact h _ (matrix_getD_mem d _ hlt) _ hmem2
      · rw [List.getD_eq_getElem?_getD, List.getElem?_eq_none (by omega),
            Option.getD_none] at hmem2
        exact absurd hmem2 (List.not_mem_nil _)
    · exact hc

theorem drawPixel_inv (d : Display) (x y : Int) (c : Color) (hinv : DisplayInv d) :
    DisplayInv (d.drawPixel x y c).2 ∧
      (d.drawPixel x y c).2.maxX = d.maxX ∧ (d.drawPixel x y c).2.maxY = d.maxY := by
  unfold Display.drawPixel
  split_ifs with hb hcu
  · exact ⟨hinv, rfl, rfl⟩
  · exact ⟨hinv, rfl, rfl⟩
  · refine ⟨⟨?_, ?_⟩, rfl, rfl⟩
    · exact setCell_wf d x y c hinv.1 (by obtain ⟨hlen, -⟩ := hinv.1; omega)
    · exact setCell_validCells d x y c hinv.2 (by simpa using hcu)

theorem clearScreen_inv (d : Display) (hwf : DisplayWF d) :
    DisplayInv d.clearScreen ∧ d.clearScreen.maxX = d.maxX ∧
      d.clearScreen.maxY = d.maxY := by
  obtain ⟨hlen, hcols⟩ := hwf
  refine ⟨⟨⟨?_, ?_⟩, ?_⟩, rfl, rfl⟩
  · simpa [Display.clearScreen] using hlen
  · intro col hcol
    simp only [Display.clearScreen, List.mem_map] at hcol
    obtain ⟨col0, hcol0, rfl⟩ := hcol
    simpa using hcols _ hcol0
  · rw [validCells_iff]
    intro col hcol cc hcc
    simp only [Display.clearScreen, List.mem_map] at hcol
    obtain ⟨col0, hcol0, rfl⟩ := hcol
    simp only [List.mem_map] at hcc
    obtain ⟨c0, hc0, rfl⟩ := hcc
    decide

theorem create_inv (w h : Int) : DisplayInv (Display.create w h) := by
  refine ⟨⟨?_, ?_⟩, ?_⟩
  · simp [Display.create]
  · intro col hcol
    rw [List.eq_of_mem_replicate hcol]
    simp [Display.create]
  · rw [validCells_iff]
    intro col hcol cc hcc
    rw [List.eq_of_mem_replicate hcol] at hcc
    rw [List.eq_of_mem_replicate hcc]
    decide

/-- `Rectangle.draw` on a display preserves the canvas invariant. -/
theorem rect_draw_inv (r : Rectangle) (d : Display) (hinv : DisplayInv d) :
    DisplayInv (Rectangle.draw displayScreen r d).2 ∧
      (Rectangle.draw displayScreen r d).2.maxX = d.maxX ∧
      (Rectangle.draw displayScreen r d).2.maxY = d.maxY := by
  unfold Rectangle.draw
  by_cases hob : (outOfBounds displayScreen r.ll d || outOfBounds displayScreen r.ur d)
      = true
  · rw [if_pos hob]
    exact ⟨hinv, rfl, rfl⟩
  · rw [if_neg hob]
    by_cases hcu : colorUnknown r.c = true
    · rw [if_pos hcu]
      exact ⟨hinv, rfl, rfl⟩
    · rw [if_neg hcu]
      have hc : colorUnknown r.c = false := by simpa using hcu
      have h1 : outOfBounds displayScreen r.ll d = false := by
        cases h : outOfBounds displayScreen r.ll d
        · rfl
        · exact absurd (by rw [h]; rfl) hob
      have h2 : outOfBounds displayScreen r.ur d = false := by
        cases h : outOfBounds displayScreen r.ur d
        · rfl
        · exact absurd (by rw [h]; simp) hob
      obtain ⟨hll1, hll2, hll3, hll4⟩ := (outOfBounds_displayScreen r.ll d).1 h1
      obtain ⟨hur1, hur2, hur3, hur4⟩ := (outOfBounds_displayScreen r.ur d).1 h2
      obtain ⟨d', hd', hmx, hmy, hwf', hchar⟩ :=
        rectLoopX_spec r.c r.ll.y r.ur.y hc (r.ur.x - r.ll.x).toNat r.ll.x d hinv.1
          hll1 (by omega) hll3 hll4 (by omega)
      rw [hd']
      refine ⟨⟨hwf', ?_⟩, hmx, hmy⟩
      refine validCells_of_pointwise d d' r.c hc hinv.1 hinv.2 hwf' hmx hmy ?_
      intro a b ha _ hb _
      rw [hchar a b ha hb]
      split_ifs
      · exact Or.inl rfl
      · exact Or.inr rfl

/-- `Circle.draw` on a display preserves the canvas invariant. -/
theorem circ_draw_inv (ci : Circle) (d : Display) (hinv : DisplayInv d) :
    DisplayInv (Circle.draw displayScreen ci d).2 ∧
      (Circle.draw displayScreen ci d).2.maxX = d.maxX ∧
      (Circle.draw displayScreen ci d).2.maxY = d.maxY := by
  unfold Circle.draw
  by_cases hob : ci.center.x - ci.r < 0 ∨ ci.center.y - ci.r < 0 ∨
      (displayScreen.getMaxXY d).1 ≤ ci.center.x + ci.r ∨
      (displayScreen.getMaxXY d).2 ≤ ci.center.y + ci.r
  · rw [if_pos hob]
    exact ⟨hinv, rfl, rfl⟩
  · rw [if_neg hob]
    by_cases hcu : colorUnknown ci.c = true
    · rw [if_pos hcu]
      exact ⟨hinv, rfl, rfl⟩
    · rw [if_neg hcu]
      have hc : colorUnknown ci.c = false := by simpa using hcu
      obtain ⟨d', hd', hmx, hmy, hwf', hchar⟩ :=
        circOuterLoop_spec ci hc d.maxX d.maxY (2 * ci.r + 1).toNat
          (ci.center.y - ci.r) d hinv.1 rfl rfl
      have hshow : (displayScreen.getMaxXY d).1 = d.maxX := rfl
      have hshow2 : (displayScreen.getMaxXY d).2 = d.maxY := rfl
      rw [hshow, hshow2, hd']
      refine ⟨⟨hwf', ?_⟩, hmx, hmy⟩
      refine validCells_of_pointwise d d' ci.c hc hinv.1 hinv.2 hwf' hmx hmy ?_
      intro a b ha _ hb _
      rw [hchar a b ha hb]
      split_ifs
      · exact Or.inl rfl
      · exact Or.inr rfl

/-- A `Triangle.draw` that returns (rather than panicking) preserves the
canvas invariant — whatever the vertex order, since the scanline loops
characterize any pair of boundary slices. -/
theorem tri_draw_inv (t : Triangle) (d : Display) (hinv : DisplayInv d) :
    ∀ p, Triangle.draw displayScreen t d = some p →
      DisplayInv p.2 ∧ p.2.maxX = d.maxX ∧ p.2.maxY = d.maxY := by
  intro p hp
  unfold Triangle.draw at hp
  by_cases hob : (outOfBounds displayScreen t.pt0 d || outOfBounds displayScreen t.pt1 d
      || outOfBounds displayScreen t.pt2 d) = true
  · rw [if_pos hob] at hp
    injection hp with hp
    rw [← hp]
    exact ⟨hinv, rfl, rfl⟩
  · rw [if_neg hob] at hp
    by_cases hcu : colorUnknown t.c = true
    · rw [if_pos hcu] at hp
      injection hp with hp
      rw [← hp]
      exact ⟨hinv, rfl, rfl⟩
    · rw [if_neg hcu] at hp
      have hc : colorUnknown (sortTriPts t).c = false := by
        rw [sortTriPts_c]
        simpa using hcu
      simp only [] at hp
      rcases hq1 : (triX02 (sortTriPts t))[(triX012 (sortTriPts t)).length / 2]?
        with _ | a02
      · rw [hq1] at hp
        rcases hq2 : (triX012 (sortTriPts t))[(triX012 (sortTriPts t)).length / 2]?
          with _ | a012 <;> rw [hq2] at hp <;> exact absurd hp (by simp)
      · rcases hq2 : (triX012 (sortTriPts t))[(triX012 (sortTriPts t)).length / 2]?
          with _ | a012
        · rw [hq1, hq2] at hp
          exact absurd hp (by simp)
        · rw [hq1, hq2] at hp
          obtain ⟨d', hd', hmx, hmy, hwf', hchar⟩ :=
            triRowLoop_spec (sortTriPts t).c hc d.maxX d.maxY
              (if a02 < a012 then (triX02 (sortTriPts t), triX012 (sortTriPts t))
                else (triX012 (sortTriPts t), triX02 (sortTriPts t))).1
              (if a02 < a012 then (triX02 (sortTriPts t), triX012 (sortTriPts t))
                else (triX012 (sortTriPts t), triX02 (sortTriPts t))).2
              (sortTriPts t).pt0.y
              ((sortTriPts t).pt2.y - (sortTriPts t).pt0.y + 1).toNat
              (sortTriPts t).pt0.y d hinv.1 rfl rfl
          injection hp with hp
          rw [← hp]
          simp only []
          rw [hd']
          refine ⟨⟨hwf', ?_⟩, hmx, hmy⟩
          refine validCells_of_pointwise d d' (sortTriPts t).c hc hinv.1 hinv.2
            hwf' hmx hmy ?_
          intro a b ha _ hb _
          rw [hchar a b ha hb]
          split_ifs <;> first | exact Or.inl rfl | exact Or.inr rfl

theorem applyOp_inv (d : Display) (op : Op) (hinv : DisplayInv d) :
    DisplayInv (applyOp d op) := by
  cases op with
  | setPix x y c => exact (drawPixel_inv d x y c hinv).1
  | clear => exact (clearScreen_inv d hinv.1).1
  | rect r => exact (rect_draw_inv r d hinv).1
  | tri t =>
    rcases hp : Triangle.draw displayScreen t d with _ | p
    · simp only [applyOp, hp]
      exact hinv
    · simp only [applyOp, hp]
      exact (tri_draw_inv t d hinv p hp).1
  | circ ci => exact (circ_draw_inv ci d hinv).1

theorem applyOps_inv (ops : List Op) :
    ∀ (d : Display), DisplayInv d → DisplayInv (applyOps d ops) := by
  induction ops with
  | nil => intro d hinv; exact hinv
  | cons op ops ih =>
    intro d hinv
    exact ih (applyOp d op) (applyOp_inv d op hinv)

/-- `getPixel` on an invariant-respecting display never reports
`invalidColor` for in-bounds coordinates. -/
theorem getPixel_ok_of_inv (d : Display) (hinv : DisplayInv d) (x y : Int)
    (hx : 0 ≤ x) (hx2 : x < d.maxX) (hy : 0 ≤ y) (hy2 : y < d.maxY) :
    ∃ c, d.getPixel x y = Except.ok c := by
  unfold Display.getPixel
  rw [if_neg (by omega),
      if_neg (by simp [cell_valid d hinv.1 hinv.2 x y hx hx2 hy hy2])]
  exact ⟨_, rfl⟩

/-- Claim C8: starting from `initialize` and applying any sequence of
`drawPixel`, `clearScreen` and shape draws, the grid stays well-formed with
every cell holding a palette color (initially white), so `getPixel` on
in-bounds coordinates never returns the `invalidColor` error. -/
theorem canvas_colors_always_valid (w h : Int) (ops : List Op) :
    DisplayWF (applyOps (Display.create w h) ops) ∧
    validCells (applyOps (Display.create w h) ops) = true ∧
    ∀ x y : Int, 0 ≤ x → x < (applyOps (Display.create w h) ops).maxX →
      0 ≤ y → y < (applyOps (Display.create w h) ops).maxY →
      ∃ c, (applyOps (Display.create w h) ops).getPixel x y = Except.ok c := by
  have hinv := applyOps_inv ops (Display.create w h) (create_inv w h)
  exact ⟨hinv.1, hinv.2, fun x y hx hx2 hy hy2 =>
    getPixel_ok_of_inv _ hinv x y hx hx2 hy hy2⟩

/-- Witness for `canvas_colors_always_valid`: a 3×3 canvas after one of each
operation kind, read back at (1,1). -/
theorem canvas_colors_always_valid_witness :
    ((0 : Int) ≤ 1 ∧
      (1 : Int) < (applyOps (Display.create 3 3)
        [.setPix 1 1 ⟨"red"⟩, .clear, .rect ⟨⟨0,0⟩,⟨2,2⟩,⟨"blue"⟩⟩,
         .tri ⟨⟨0,0⟩,⟨2,1⟩,⟨0,2⟩,⟨"green"⟩⟩, .circ ⟨⟨1,1⟩,1,⟨"black"⟩⟩]).maxX) ∧
    ∃ c, (applyOps (Display.create 3 3)
        [.setPix 1 1 ⟨"red"⟩, .clear, .rect ⟨⟨0,0⟩,⟨2,2⟩,⟨"blue"⟩⟩,
         .tri ⟨⟨0,0⟩,⟨2,1⟩,⟨0,2⟩,⟨"green"⟩⟩, .circ ⟨⟨1,1⟩,1,⟨"black"⟩⟩]).getPixel 1 1
      = Except.ok c :=
  ⟨⟨by decide, by decide⟩,
   (canvas_colors_always_valid 3 3
     [.setPix 1 1 ⟨"red"⟩, .clear, .rect ⟨⟨0,0⟩,⟨2,2⟩,⟨"blue"⟩⟩,
      .tri ⟨⟨0,0⟩,⟨2,1⟩,⟨0,2⟩,⟨"green"⟩⟩, .circ ⟨⟨1,1⟩,1,⟨"black"⟩⟩]).2.2
     1 1 (by decide) (by decide) (by decide) (by decide)⟩

/-! ## Export format (claim C4) -/

theorem strFoldl_hoist :
    ∀ (l : List String) (a : String),
      l.foldl (· ++ ·) a = a ++ l.foldl (· ++ ·) "" := by
  intro l
  induction l with
  | nil => intro a; simp [String.append_empty]
  | cons x l ih =>
    intro a
    simp only [List.foldl_cons]
    rw [ih (a ++ x), ih ("" ++ x), String.empty_append, String.append_assoc]

theorem strJoin_cons (s : String) (l : List String) :
    String.join (s :: l) = s ++ String.join l := by
  unfold String.join
  simp only [List.foldl_cons]
  rw [String.empty_append, strFoldl_hoist]

/-- The outer `screenShot` loop (append one full row then a newline per `y`)
builds exactly the concatenation of the per-row strings. -/
theorem screenShot_rows_join (g : Nat → String) :
    ∀ (l : List Nat) (init : String),
      l.foldl (fun acc y => acc ++ g y ++ "\n") init
        = init ++ String.join (l.map (fun y => g y ++ "\n")) := by
  intro l
  induction l with
  | nil => intro init; simp [String.append_empty, String.join]
  | cons a l ih =>
    intro init
    simp only [List.foldl_cons, List.map_cons]
    rw [ih, strJoin_cons]
    simp only [String.append_assoc]

theorem specRowJoin_append_singleton (p : String) (l : List String) (a : String) :
    specRowJoin ((p :: l) ++ [a]) = specRowJoin (p :: l) ++ " " ++ a := by
  show (l ++ [a]).foldl (fun acc q => acc ++ " " ++ q) p = _
  rw [List.foldl_append]
  rfl

/-- The inner `screenShot` loop (space before every pixel except the first)
builds exactly the space-separated join of the pixel strings. -/
theorem screenShot_row_eq_join (g : Nat → String) :
    ∀ (n : Nat),
      (List.range n).foldl (fun acc x => acc ++ (if 0 < x then " " else "") ++ g x) ""
        = specRowJoin ((List.range n).map g) := by
  intro n
  induction n with
  | zero => rfl
  | succ n ih =>
    rw [List.range_succ, List.foldl_append, List.map_append, ih]
    simp only [List.foldl_cons, List.foldl_nil, List.map_cons, List.map_nil]
    match n with
    | 0 =>
      show specRowJoin [] ++ (if (0:Nat) < 0 then " " else "") ++ g 0
          = specRowJoin ([] ++ [g 0])
      rw [if_neg (by omega)]
      show "" ++ "" ++ g 0 = specRowJoin [g 0]
      rw [String.append_empty, String.empty_append]
      rfl
    | m + 1 =>
      rcases hr : (List.range (m + 1)).map g with _ | ⟨p, l⟩
      · exfalso
        have hlen := congrArg List.length hr
        simp at hlen
      · rw [if_pos (by omega), specRowJoin_append_singleton]

/-- Claim C4: for every canvas, the exported file content is exactly a
3-line header — `P3`, then `maxX maxY`, then `255` — followed by `maxY`
lines, where line `y` lists the `maxX` RGB triples of pixels
`(0,y) .. (maxX-1,y)` read from the grid as `[x][y]`, space-separated with
no trailing separator, each line ended by a newline. -/
theorem screenShot_matches_spec (d : Display) : d.screenShot = specPPM d := by
  unfold Display.screenShot specPPM
  congr 1
  calc (List.range d.maxY.toNat).foldl
        (fun acc y => acc ++ screenShotRow d y ++ "\n") ""
      = "" ++ String.join ((List.range d.maxY.toNat).map
          (fun y => screenShotRow d y ++ "\n")) := by
        rw [screenShot_rows_join (fun y => screenShotRow d y)]
    _ = String.join ((List.range d.maxY.toNat).map
          (fun y => screenShotRow d y ++ "\n")) := String.empty_append _
    _ = String.join ((List.range d.maxY.toNat).map (fun y =>
          specRowJoin ((List.range d.maxX.toNat).map (fun x =>
            tripleStr (colorMapZ (d.cell (Int.ofNat x) (Int.ofNat y)).Name))) ++ "\n")) := by
        congr 1
        refine List.map_congr_left ?_
        intro y _
        rw [show screenShotRow d y = (List.range d.maxX.toNat).foldl
              (fun acc x => acc ++ (if 0 < x then " " else "") ++
                tripleStr (colorMapZ (d.cell (Int.ofNat x) (Int.ofNat y)).Name)) ""
            from rfl,
          screenShot_row_eq_join
            (fun x => tripleStr (colorMapZ (d.cell (Int.ofNat x) (Int.ofNat y)).Name))]

end Geo
